import Mathlib

/-
  Shallow embedding of src/buffer_mgr.c (a fixed-capacity page buffer pool).

  Modelling conventions:
  * A frame's byte buffer is abstracted to one value: `data : Option Int`.
    `none` models a NULL `char *` pointer; `some v` models an allocated
    PAGE_SIZE-byte buffer whose entire content is summarised by `v`
    (calloc yields the zero block, modelled as `some 0`).
  * The external page file is an environment, not pool state: `Env.openOk k`
    is the outcome of the k-th fopen performed inside one operation, and
    `Env.fileAt off` is the page-sized block read at byte offset `off`.
  * Disk traffic is returned as an explicit trace of read/write events
    carrying the byte offsets the C code passes to fseek.
  * C ints become `Int`; array indices become `Nat`; the C sentinel
    index -1 returned by strategyForFIFOandLRU becomes `Option Nat`
    (`none` for -1).
  * The I/O counter fields numberReadIO / numberWriteIO of the C struct are
    spelled numberReadIo / numberWriteIo here.
  * `BM_BufferPool.mgmtData == NULL` (never initialized / already shut down)
    is modelled by the pool being `none`.
-/

namespace BufferMgr

/-- Modelled from the spec: PAGE_SIZE is defined in storage_mgr.h, which is not
under src/. The spec fixes pages at one constant size; the conventional value
4096 is used. Only the byte offset pageNum * PAGE_SIZE matters to the claims. -/
def PAGE_SIZE : Int := 4096

/-- Modelled from the spec: NO_PAGE is defined in buffer_mgr.h, which is not
under src/. It is the sentinel page number marking an empty frame; per the
spec it can never collide with a valid zero-based page number (pinPage rejects
negative numbers), so it is the negative value -1. -/
def NO_PAGE : Int := -1

/-- Replacement strategy tags. Modelled from the spec: the enum lives in
buffer_mgr.h, which is not under src/; buffer_mgr.c uses RS_LRU and RS_LRU_K
by name, and the spec lists FIFO, LRU and LRU-K. -/
inductive ReplacementStrategy where
  | RS_FIFO
  | RS_LRU
  | RS_CLOCK
  | RS_LFU
  | RS_LRU_K
deriving DecidableEq

export ReplacementStrategy (RS_FIFO RS_LRU RS_CLOCK RS_LFU RS_LRU_K)

/-- Return codes. Modelled from the spec: dberror.h is not under src/; these
are exactly the codes buffer_mgr.c returns, and only their identity matters. -/
inductive RC where
  | RC_OK
  | RC_FILE_NOT_FOUND
  | RC_MEMORY_ALLOCATION_ERROR
  | RC_POOL_NOT_INIT
  | RC_SHUTDOWN_POOL_FAILED
  | RC_PAGE_NOT_FOUND
  | RC_PAGE_NOT_PINNED
  | RC_NEGATIVE_PAGE_NUM
  | RC_NO_AVAILABLE_FRAME
deriving DecidableEq

export RC (RC_OK RC_FILE_NOT_FOUND RC_MEMORY_ALLOCATION_ERROR RC_POOL_NOT_INIT
  RC_SHUTDOWN_POOL_FAILED RC_PAGE_NOT_FOUND RC_PAGE_NOT_PINNED
  RC_NEGATIVE_PAGE_NUM RC_NO_AVAILABLE_FRAME)

/-- One frame of the pool — the C struct BM_PageHandle (buffer_mgr.h):
pageNum, data pointer, dirty flag, fix count, strategy attribute pointer.
`strategyAttribute = none` models a NULL attribute pointer. -/
structure BM_PageHandle where
  pageNum : Int
  data : Option Int
  dirty : Bool
  fixCounts : Int
  strategyAttribute : Option Int
deriving DecidableEq

/-- An initialized buffer pool (mgmtData not NULL). numPages of the C struct
is the length of `frames`; pageFile is represented by the environment. -/
structure PoolI where
  strategy : ReplacementStrategy
  numberReadIo : Int
  numberWriteIo : Int
  buffertimer : Int
  frames : List BM_PageHandle
deriving DecidableEq

/-- A BM_BufferPool: `none` models mgmtData == NULL. -/
abbrev Pool := Option PoolI

/-- One disk access, with the byte offset handed to fseek. -/
inductive IoEv where
  | readAt (offset : Int)
  | writeAt (offset : Int) (content : Option Int)
deriving DecidableEq

/-- The external world of one operation: fopen outcomes (indexed by how many
fopen calls the operation has already made) and file content by byte offset. -/
structure Env where
  openOk : Nat → Bool
  fileAt : Int → Int

/-- The frame state initBufferPool gives every slot. -/
def emptyFrame : BM_PageHandle :=
  { pageNum := NO_PAGE, data := none, dirty := false, fixCounts := 0,
    strategyAttribute := none }

/-- Frame at index i (reads of pool->mgmtData[i]; i is always in range where
this is used, the default is never reached). -/
def fget (p : PoolI) (i : Nat) : BM_PageHandle :=
  p.frames.getD i emptyFrame

/-- First index whose frame satisfies pred — the `while` scan pattern
(counter = 0; ...; counter++) used all over buffer_mgr.c. -/
def scanIdx (pred : BM_PageHandle → Bool) : List BM_PageHandle → Option Nat
  | [] => none
  | f :: rest => if pred f then some 0 else (scanIdx pred rest).map Nat.succ

/-- initBufferPool: opens the page file (fopen outcome env.openOk 0); on
success resets counters and timer and allocates numFrames empty frames;
on failure returns RC_FILE_NOT_FOUND leaving the pool untouched. -/
def initBufferPool (env : Env) (pool : Pool) (numFrames : Nat)
    (strat : ReplacementStrategy) : RC × Pool :=
  if env.openOk 0 then
    (RC_OK, some { strategy := strat, numberReadIo := 0, numberWriteIo := 0,
                   buffertimer := 0,
                   frames := List.replicate numFrames emptyFrame })
  else (RC_FILE_NOT_FOUND, pool)

/-- updateBfrAtrbt: sets the frame's strategy attribute to the current
buffertimer, then increments the timer (allocation of the attribute cell is
assumed to succeed). Returns the updated pool and frame. -/
def updateBfrAtrbt (p : PoolI) (f : BM_PageHandle) : PoolI × BM_PageHandle :=
  ({ p with buffertimer := p.buffertimer + 1 },
   { f with strategyAttribute := some p.buffertimer })

/-- Result of forcePage (and of the forceFlushPool loop): return code, pool,
number of fopen calls made so far in the operation, and the disk trace. -/
structure ForceRes where
  rc : RC
  pool : PoolI
  opens : Nat
  trace : List IoEv
deriving DecidableEq

/-- forcePage: finds the first frame whose pageNum equals the handle's
pageNum; if none, RC_PAGE_NOT_FOUND. Otherwise fopen (outcome env.openOk k);
on failure RC_FILE_NOT_FOUND; on success fseek to pageNum * PAGE_SIZE, fwrite
the frame's data, increment numberWriteIO and clear the frame's dirty flag. -/
def forcePage (env : Env) (k : Nat) (p : PoolI) (pNum : Int) : ForceRes :=
  match scanIdx (fun f => f.pageNum == pNum) p.frames with
  | none => { rc := RC_PAGE_NOT_FOUND, pool := p, opens := k, trace := [] }
  | some i =>
    if env.openOk k then
      let f := fget p i
      { rc := RC_OK,
        pool := { p with
          frames := p.frames.set i { f with dirty := false },
          numberWriteIo := p.numberWriteIo + 1 },
        opens := k + 1,
        trace := [IoEv.writeAt (pNum * PAGE_SIZE) f.data] }
    else { rc := RC_FILE_NOT_FOUND, pool := p, opens := k + 1, trace := [] }

/-- The while loop of forceFlushPool over the remaining frame indices: a frame
with dirty && fixCounts == 0 is forced to disk via forcePage and (again) marked
clean; an error from forcePage aborts the loop and is returned. -/
def flushLoop (env : Env) : List Nat → Nat → PoolI → List IoEv → ForceRes
  | [], k, p, acc => { rc := RC_OK, pool := p, opens := k, trace := acc }
  | i :: rest, k, p, acc =>
    let f := fget p i
    if f.dirty && f.fixCounts == 0 then
      let r := forcePage env k p f.pageNum
      if r.rc = RC_OK then
        let f2 := fget r.pool i
        flushLoop env rest r.opens
          { r.pool with frames := r.pool.frames.set i { f2 with dirty := false } }
          (acc ++ r.trace)
      else { r with trace := acc ++ r.trace }
    else flushLoop env rest k p acc

/-- Result type of operations that return only a code and the pool. -/
structure FlushRes where
  rc : RC
  pool : PoolI
  trace : List IoEv
deriving DecidableEq

/-- forceFlushPool: writes back every frame with dirty && fixCounts == 0. -/
def forceFlushPool (env : Env) (p : PoolI) : FlushRes :=
  let r := flushLoop env (List.range p.frames.length) 0 p []
  { rc := r.rc, pool := r.pool, trace := r.trace }

/-- Result type of markDirty / unpinPage (no disk access). -/
structure OpRes where
  rc : RC
  pool : PoolI
deriving DecidableEq

/-- markDirty: first frame whose pageNum matches is marked dirty;
RC_PAGE_NOT_FOUND if none matches. -/
def markDirty (p : PoolI) (pNum : Int) : OpRes :=
  match scanIdx (fun f => f.pageNum == pNum) p.frames with
  | none => { rc := RC_PAGE_NOT_FOUND, pool := p }
  | some i =>
    { rc := RC_OK,
      pool := { p with frames := p.frames.set i { fget p i with dirty := true } } }

/-- unpinPage: first frame whose pageNum matches; decrement its fix count if
positive, else RC_PAGE_NOT_PINNED; RC_PAGE_NOT_FOUND if no frame matches. -/
def unpinPage (p : PoolI) (pNum : Int) : OpRes :=
  match scanIdx (fun f => f.pageNum == pNum) p.frames with
  | none => { rc := RC_PAGE_NOT_FOUND, pool := p }
  | some i =>
    let f := fget p i
    if f.fixCounts > 0 then
      { rc := RC_OK,
        pool := { p with frames := p.frames.set i { f with fixCounts := f.fixCounts - 1 } } }
    else { rc := RC_PAGE_NOT_PINNED, pool := p }

/-- The selection loop of strategyForFIFOandLRU over (index, frame) pairs,
carrying minValue (initialised to buffertimer) and victimIndex (initialised
to none, the C sentinel -1): pinned frames are skipped; a frame without a
strategy attribute is chosen at once (break); otherwise an attribute <=
minValue replaces the running minimum and victim. -/
def selectLoop : List (Nat × BM_PageHandle) → Int → Option Nat → Option Nat
  | [], _, v => v
  | (i, f) :: rest, m, v =>
    if f.fixCounts != 0 then selectLoop rest m v
    else
      match f.strategyAttribute with
      | none => some i
      | some a => if a ≤ m then selectLoop rest a (some i) else selectLoop rest m v

/-- The frames of a pool paired with their indices, starting at k. -/
def enumFrom (k : Nat) : List BM_PageHandle → List (Nat × BM_PageHandle)
  | [] => []
  | f :: rest => (k, f) :: enumFrom (k + 1) rest

/-- The normalization block at the end of strategyForFIFOandLRU: if
buffertimer > 32000, reset it to 0 and reset every present strategy
attribute to 0. -/
def normalizeTimer (p : PoolI) : PoolI :=
  if p.buffertimer > 32000 then
    { p with buffertimer := 0,
             frames := p.frames.map (fun f =>
               match f.strategyAttribute with
               | none => f
               | some _ => { f with strategyAttribute := some 0 }) }
  else p

/-- strategyForFIFOandLRU: runs the selection loop over all frames, then the
normalization block; returns the victim index (none for the C sentinel -1)
and the (possibly normalized) pool. -/
def strategyForFIFOandLRU (p : PoolI) : Option Nat × PoolI :=
  (selectLoop (enumFrom 0 p.frames) p.buffertimer none, normalizeTimer p)

/-- Result of pinPage: code, pool, the handle copy written through the `page`
out-parameter (none if the call failed before `*page = ...`), disk trace. -/
structure PinRes where
  rc : RC
  pool : PoolI
  page : Option BM_PageHandle
  trace : List IoEv
deriving DecidableEq

/-- The tail of pinPage once a target slot i is fixed: allocate the frame's
data buffer if NULL (calloc zero block), fopen the page file (outcome
env.openOk k; on failure RC_FILE_NOT_FOUND with the allocation already stored
in the frame), fread the page at pNum * PAGE_SIZE, increment numberReadIO,
then store pageNum/fixCounts = 1/dirty = false, stamp the strategy attribute,
and return a copy of the frame. -/
def loadInto (env : Env) (k : Nat) (p : PoolI) (i : Nat) (pNum : Int)
    (acc : List IoEv) : PinRes :=
  let f := fget p i
  let f0 := if f.data = none then { f with data := some 0 } else f
  if env.openOk k then
    let f1 := { f0 with data := some (env.fileAt (pNum * PAGE_SIZE)) }
    let p1 := { p with frames := p.frames.set i f1,
                       numberReadIo := p.numberReadIo + 1 }
    let f2 := { f1 with pageNum := pNum, fixCounts := 1, dirty := false }
    let (p2, f3) := updateBfrAtrbt p1 f2
    { rc := RC_OK,
      pool := { p2 with frames := p2.frames.set i f3 },
      page := some f3,
      trace := acc ++ [IoEv.readAt (pNum * PAGE_SIZE)] }
  else
    { rc := RC_FILE_NOT_FOUND,
      pool := { p with frames := p.frames.set i f0 },
      page := none,
      trace := acc }

/-- pinPage: reject negative page numbers; if the page is resident, refresh
its attribute under RS_LRU / RS_LRU_K, increment its fix count and return a
copy; otherwise take the first empty frame, or else ask
strategyForFIFOandLRU for a victim (failing with RC_NO_AVAILABLE_FRAME if it
returns the -1 sentinel), force a dirty victim to disk first, and load the
requested page into the chosen slot. -/
def pinPage (env : Env) (p : PoolI) (pNum : Int) : PinRes :=
  if pNum < 0 then { rc := RC_NEGATIVE_PAGE_NUM, pool := p, page := none, trace := [] }
  else
    match scanIdx (fun f => f.pageNum == pNum) p.frames with
    | some i =>
      let f := fget p i
      let pf1 :=
        if p.strategy = RS_LRU ∨ p.strategy = RS_LRU_K then updateBfrAtrbt p f
        else (p, f)
      let f2 := { pf1.2 with fixCounts := pf1.2.fixCounts + 1 }
      { rc := RC_OK,
        pool := { pf1.1 with frames := pf1.1.frames.set i f2 },
        page := some f2,
        trace := [] }
    | none =>
      match scanIdx (fun f => f.pageNum == NO_PAGE) p.frames with
      | some i => loadInto env 0 p i pNum []
      | none =>
        let vp := strategyForFIFOandLRU p
        match vp.1 with
        | none => { rc := RC_NO_AVAILABLE_FRAME, pool := vp.2, page := none, trace := [] }
        | some i =>
          let p1 := vp.2
          if (fget p1 i).dirty = true then
            let r := forcePage env 0 p1 (fget p1 i).pageNum
            if r.rc = RC_OK then loadInto env r.opens r.pool i pNum r.trace
            else { rc := r.rc, pool := r.pool, page := none, trace := r.trace }
          else loadInto env 0 p1 i pNum []

/-- shutdownBufferPool: refuse while some frame has a nonzero fix count; else
flush everything dirty and free the management data (the pool becomes none).
A flush failure is returned with the partially flushed pool kept. -/
def shutdownBufferPool (env : Env) (pool : Pool) : RC × Pool :=
  match pool with
  | none => (RC_POOL_NOT_INIT, none)
  | some p =>
    if p.frames.any (fun f => f.fixCounts != 0) then
      (RC_SHUTDOWN_POOL_FAILED, some p)
    else
      let r := forceFlushPool env p
      if r.rc = RC_OK then (RC_OK, none) else (r.rc, some r.pool)

/-- The public operations, for reachability over operation sequences. -/
inductive Op where
  | opInit (numFrames : Nat) (strat : ReplacementStrategy)
  | opPin (pNum : Int)
  | opUnpin (pNum : Int)
  | opMarkDirty (pNum : Int)
  | opFlushAll
  | opForceFlushOne (pNum : Int)
  | opShutdown

/-- State transition of one public operation (every operation except
initBufferPool first checks mgmtData == NULL and fails without effect). -/
def exec (env : Env) (op : Op) (pool : Pool) : Pool :=
  match op with
  | Op.opInit n strat => (initBufferPool env pool n strat).2
  | Op.opPin pNum =>
      match pool with
      | none => none
      | some p => some (pinPage env p pNum).pool
  | Op.opUnpin pNum =>
      match pool with
      | none => none
      | some p => some (unpinPage p pNum).pool
  | Op.opMarkDirty pNum =>
      match pool with
      | none => none
      | some p => some (markDirty p pNum).pool
  | Op.opFlushAll =>
      match pool with
      | none => none
      | some p => some (forceFlushPool env p).pool
  | Op.opForceFlushOne pNum =>
      match pool with
      | none => none
      | some p => some (forcePage env 0 p pNum).pool
  | Op.opShutdown => (shutdownBufferPool env pool).2

/-- States reachable from an uninitialized pool by any sequence of public
operations, each against an arbitrary environment. -/
inductive Reachable : Pool → Prop
  | start : Reachable none
  | step (env : Env) (op : Op) {s : Pool} : Reachable s → Reachable (exec env op s)

/-! Specification-side definitions (for the refinement statement about the
victim selector) and invariant predicates. -/

/-- Index of the first frame, in scan order, that is unpinned and has no
strategy attribute — the short-circuit case of the victim selector. -/
def firstNoneIdx? : List (Nat × BM_PageHandle) → Option Nat
  | [] => none
  | (i, f) :: rest =>
    if f.fixCounts == 0 && f.strategyAttribute.isNone then some i
    else firstNoneIdx? rest

/-- The eligible (index, attribute) pairs: unpinned frames that carry a
strategy attribute, in scan order. -/
def eligOf : List (Nat × BM_PageHandle) → List (Nat × Int)
  | [] => []
  | (i, f) :: rest =>
    if f.fixCounts == 0 then
      match f.strategyAttribute with
      | some a => (i, a) :: eligOf rest
      | none => eligOf rest
    else eligOf rest

/-- Minimum of an initial value and the attribute values of a list. -/
def minSnd : List (Nat × Int) → Int → Int
  | [], m => m
  | q :: rest, m => minSnd rest (min m q.2)

/-- Index component of the last element of a list. -/
def lastIdx? : List (Nat × Int) → Option Nat
  | [] => none
  | q :: rest => match lastIdx? rest with
    | none => some q.1
    | some j => some j

/-- The running-minimum scan of the victim selector restricted to the
eligible pairs (intermediate form used to relate loop and specification). -/
def foldMin : List (Nat × Int) → Int → Option Nat → Option Nat
  | [], _, v => v
  | (i, a) :: rest, m, v => if a ≤ m then foldMin rest a (some i) else foldMin rest m v

/-- The victim the selector is specified to pick: any unpinned frame without
an attribute wins immediately (first in scan order); otherwise, among
unpinned frames with an attribute, the smallest attribute value wins provided
it does not exceed the clock, with ties broken by the highest frame index;
if every eligible attribute exceeds the clock (or there is no eligible
frame), there is no victim. -/
def specVictim (frames : List BM_PageHandle) (clock : Int) : Option Nat :=
  match firstNoneIdx? (enumFrom 0 frames) with
  | some i => some i
  | none =>
    match eligOf (enumFrom 0 frames) with
    | [] => none
    | q :: qs =>
      let mn := minSnd qs q.2
      if mn ≤ clock then lastIdx? ((q :: qs).filter (fun r => r.2 == mn))
      else none

/-- Residency uniqueness: no two frames hold the same non-sentinel page. -/
def Uniq (p : PoolI) : Prop :=
  ∀ i j, i < p.frames.length → j < p.frames.length → i ≠ j →
    (fget p i).pageNum = (fget p j).pageNum → (fget p i).pageNum = NO_PAGE

/-- An empty frame (sentinel page number) is never pinned. -/
def EmptyUnpinned (p : PoolI) : Prop :=
  ∀ i, i < p.frames.length → (fget p i).pageNum = NO_PAGE →
    (fget p i).fixCounts = 0

/-- Clock dominance: every present strategy attribute is at most the clock. -/
def AttrLeTimer (p : PoolI) : Prop :=
  ∀ i, i < p.frames.length → ∀ a, (fget p i).strategyAttribute = some a →
    a ≤ p.buffertimer

/-- The three frame invariants of an initialized pool together. -/
def InvI (p : PoolI) : Prop := Uniq p ∧ EmptyUnpinned p ∧ AttrLeTimer p

/-- The pool invariant maintained by every public operation. -/
def PoolInv : Pool → Prop
  | none => True
  | some p => InvI p

/-- q has the same frame count, clock, and per-frame page number, fix count
and attribute as p (only dirty flags, data buffers and I/O counters may
differ) — the shape preserved by the flush operations. -/
def SameSkeleton (p q : PoolI) : Prop :=
  q.frames.length = p.frames.length ∧
  q.buffertimer = p.buffertimer ∧
  ∀ j, j < p.frames.length →
    (fget q j).pageNum = (fget p j).pageNum ∧
    (fget q j).fixCounts = (fget p j).fixCounts ∧
    (fget q j).strategyAttribute = (fget p j).strategyAttribute

/-! Definitions for the flushAll statement. -/

/-- A frame with its dirty flag cleared. -/
def clearDirty (f : BM_PageHandle) : BM_PageHandle := { f with dirty := false }

/-- Indices of the frames forceFlushPool must write: dirty and unpinned. -/
def flushTargets (p : PoolI) : List Nat :=
  (List.range p.frames.length).filter
    (fun i => (fget p i).dirty && (fget p i).fixCounts == 0)

/-- The write event the flush of frame i produces: the frame's content at
byte offset pageNum * PAGE_SIZE. -/
def flushEvent (p : PoolI) (i : Nat) : IoEv :=
  IoEv.writeAt ((fget p i).pageNum * PAGE_SIZE) ((fget p i).data)

/-! Concrete environments and pools used by counterexamples and witnesses. -/

/-- Environment in which every fopen succeeds and every page reads as 0. -/
def envAllOk : Env := ⟨fun _ => true, fun _ => 0⟩

/-- Environment in which only the first fopen of an operation succeeds. -/
def envSecondOpenFails : Env := ⟨fun k => k == 0, fun _ => 0⟩

/-- Capacity-3 FIFO pool as initBufferPool creates it. -/
def fifo3 : PoolI :=
  { strategy := RS_FIFO, numberReadIo := 0, numberWriteIo := 0,
    buffertimer := 0, frames := List.replicate 3 emptyFrame }

/-- The pool after pin 0, pin 1, pin 2 on fifo3 (no unpins). -/
def c5Pinned : PoolI :=
  (pinPage envAllOk (pinPage envAllOk (pinPage envAllOk fifo3 0).pool 1).pool 2).pool

/-- The pool after pin 0, unpin 0, pin 1, unpin 1, pin 2, unpin 2 on fifo3. -/
def c5Filled : PoolI :=
  (unpinPage (pinPage envAllOk
    (unpinPage (pinPage envAllOk
      (unpinPage (pinPage envAllOk fifo3 0).pool 0).pool 1).pool 1).pool 2).pool 2).pool

/-- Two unpinned frames with the same minimal attribute value 5. -/
def c1TiePool : PoolI :=
  ⟨RS_FIFO, 0, 0, 10, [⟨0, some 0, false, 0, some 5⟩, ⟨1, some 0, false, 0, some 5⟩]⟩

/-- A full capacity-1 pool whose only frame is an unpinned dirty victim. -/
def c4Pool : PoolI := ⟨RS_FIFO, 1, 0, 1, [⟨5, some 7, true, 0, some 0⟩]⟩

/-- A pool whose only frame is clean and pinned. -/
def c7Pool : PoolI := ⟨RS_FIFO, 0, 0, 0, [⟨0, some 9, false, 1, none⟩]⟩

/-- A fresh capacity-1 LRU pool with one empty frame. -/
def c9Pool : PoolI :=
  { strategy := RS_LRU, numberReadIo := 0, numberWriteIo := 0,
    buffertimer := 0, frames := [emptyFrame] }

/-- The capacity-1 LRU pool after pinning page 0 once and then re-pinning it
n more times (in envAllOk): the fix count is 1 + n, the attribute n, the
clock n + 1, and one read was performed. -/
def lruPool1 (n : Nat) : PoolI :=
  { strategy := RS_LRU, numberReadIo := 1, numberWriteIo := 0,
    buffertimer := (n : Int) + 1,
    frames := [⟨0, some 0, false, (n : Int) + 1, some (n : Int)⟩] }

/-- Capacity-3 FIFO pool with two dirty unpinned frames around a dirty
pinned one (flushAll witness). -/
def c6Pool : PoolI :=
  ⟨RS_FIFO, 0, 0, 3, [⟨0, some 1, true, 0, some 0⟩, ⟨1, some 2, true, 1, some 1⟩,
    ⟨2, some 3, true, 0, some 2⟩]⟩

/-! List helper lemmas. -/

lemma getD_set_self {α : Type} : ∀ (l : List α) (i : Nat) (a d : α),
    i < l.length → (l.set i a).getD i d = a
  | [], i, _, _, h => absurd h (by simp)
  | _ :: _, 0, _, _, _ => rfl
  | _ :: xs, i + 1, a, d, h =>
    getD_set_self xs i a d (by simpa using h)

lemma getD_set_ne {α : Type} : ∀ (l : List α) (i j : Nat) (a d : α),
    i ≠ j → (l.set i a).getD j d = l.getD j d
  | [], _, _, _, _, _ => rfl
  | _ :: _, 0, 0, _, _, h => absurd rfl h
  | _ :: _, 0, _ + 1, _, _, _ => rfl
  | _ :: _, _ + 1, 0, _, _, _ => rfl
  | _ :: xs, i + 1, j + 1, a, d, h =>
    getD_set_ne xs i j a d (fun hij => h (by omega))

lemma set_set_same {α : Type} : ∀ (l : List α) (i : Nat) (a b : α),
    (l.set i a).set i b = l.set i b
  | [], _, _, _ => rfl
  | _ :: _, 0, _, _ => rfl
  | x :: xs, i + 1, a, b => by
    simp only [List.set]
    rw [set_set_same xs i a b]

lemma getD_map_lt {α β : Type} (g : α → β) :
    ∀ (l : List α) (j : Nat) (d : α) (d2 : β), j < l.length →
      (l.map g).getD j d2 = g (l.getD j d)
  | [], j, _, _, h => absurd h (by simp)
  | _ :: _, 0, _, _, _ => rfl
  | _ :: xs, j + 1, d, d2, h =>
    getD_map_lt g xs j d d2 (by simpa using h)

lemma getD_mem {α : Type} : ∀ (l : List α) (i : Nat) (d : α),
    i < l.length → l.getD i d ∈ l
  | [], _, _, h => absurd h (by simp)
  | _ :: _, 0, _, _ => List.mem_cons_self _ _
  | _ :: xs, i + 1, d, h =>
    List.mem_cons_of_mem _ (getD_mem xs i d (by simpa using h))

lemma getD_replicate_lt {α : Type} : ∀ (n i : Nat) (x d : α),
    i < n → (List.replicate n x).getD i d = x
  | 0, _, _, _, h => absurd h (by simp)
  | _ + 1, 0, _, _, _ => rfl
  | n + 1, i + 1, x, d, h =>
    getD_replicate_lt n i x d (by omega)

/-! scanIdx lemmas. -/

lemma scanIdx_eq_none {pred : BM_PageHandle → Bool} :
    ∀ {l : List BM_PageHandle}, scanIdx pred l = none ↔ ∀ f ∈ l, pred f = false := by
  intro l
  induction l with
  | nil => simp [scanIdx]
  | cons x xs ih =>
    by_cases hx : pred x
    · simp [scanIdx, hx]
    · have hred : scanIdx pred (x :: xs) = (scanIdx pred xs).map Nat.succ := by
        simp [scanIdx, hx]
      rw [hred]
      constructor
      · intro h f hf
        have hnone : scanIdx pred xs = none := by
          cases hs : scanIdx pred xs
          · rfl
          · rw [hs] at h; simp at h
        rcases List.mem_cons.mp hf with rfl | hf
        · exact Bool.eq_false_iff.mpr hx
        · exact (ih.mp hnone) f hf
      · intro h
        rw [ih.mpr (fun f hf => h f (List.mem_cons_of_mem _ hf))]
        rfl

lemma scanIdx_some_lt {pred : BM_PageHandle → Bool} :
    ∀ {l : List BM_PageHandle} {i : Nat}, scanIdx pred l = some i → i < l.length := by
  intro l
  induction l with
  | nil => intro i h; simp [scanIdx] at h
  | cons x xs ih =>
    intro i h
    by_cases hx : pred x
    · simp [scanIdx, hx] at h
      subst h
      simp
    · simp [scanIdx, hx] at h
      obtain ⟨j, hj, rfl⟩ := h
      have := ih hj
      simp only [List.length_cons]
      omega

lemma scanIdx_some_pred {pred : BM_PageHandle → Bool} {d : BM_PageHandle} :
    ∀ {l : List BM_PageHandle} {i : Nat}, scanIdx pred l = some i →
      pred (l.getD i d) = true := by
  intro l
  induction l with
  | nil => intro i h; simp [scanIdx] at h
  | cons x xs ih =>
    intro i h
    by_cases hx : pred x
    · simp [scanIdx, hx] at h
      subst h
      simpa using hx
    · simp [scanIdx, hx] at h
      obtain ⟨j, hj, rfl⟩ := h
      simpa using ih hj

/-! Claim C5. -/

/-- C5 counterexample: on a fresh capacity-3 FIFO pool, the literal sequence
pin 0, pin 1, pin 2, pin 3 does not evict page 0. The first three pins leave
every frame with fix count 1, so the pin of page 3 fails with
RC_NO_AVAILABLE_FRAME, the read counter stays at 3, and no frame holds
page 3 — contradicting the claimed eviction of page 0 and read count 4. -/
theorem c5_counterexample :
    c5Pinned.frames.map BM_PageHandle.fixCounts = [1, 1, 1] ∧
    (pinPage envAllOk c5Pinned 3).rc = RC_NO_AVAILABLE_FRAME ∧
    (pinPage envAllOk c5Pinned 3).pool.numberReadIo = 3 ∧
    (pinPage envAllOk c5Pinned 3).pool.frames.map BM_PageHandle.pageNum = [0, 1, 2] := by
  decide

/-- C5 amended: if each of the first three pins is followed by an unpin of
the same page, the scenario holds: pins of 0, 1, 2 fill the pool with no
eviction (frames hold pages 0, 1, 2 and exactly 3 reads happened), and the
subsequent pin of page 3 evicts page 0 (the oldest load, in frame 0), leaves
frame 0 holding page 3, and leaves the read counter at 4. -/
theorem c5_amended :
    c5Filled.frames.map BM_PageHandle.pageNum = [0, 1, 2] ∧
    c5Filled.numberReadIo = 3 ∧
    c5Filled.numberWriteIo = 0 ∧
    (pinPage envAllOk c5Filled 3).rc = RC_OK ∧
    fget (pinPage envAllOk c5Filled 3).pool 0 =
      { pageNum := 3, data := some 0, dirty := false, fixCounts := 1,
        strategyAttribute := some 3 } ∧
    (pinPage envAllOk c5Filled 3).pool.frames.map BM_PageHandle.pageNum = [3, 1, 2] ∧
    (pinPage envAllOk c5Filled 3).pool.numberReadIo = 4 := by
  decide

/-! Claim C1: counterexample to the stated tie-break. -/

/-- C1 counterexample: both frames of c1TiePool are unpinned and carry the
same minimal attribute value 5, yet the selector picks frame 1, not the
lowest index 0 — because the comparison against the running minimum is <=,
a later frame with an equal attribute replaces an earlier one. -/
theorem c1_counterexample :
    (fget c1TiePool 0).fixCounts = 0 ∧
    (fget c1TiePool 1).fixCounts = 0 ∧
    (fget c1TiePool 0).strategyAttribute = some 5 ∧
    (fget c1TiePool 1).strategyAttribute = some 5 ∧
    (strategyForFIFOandLRU c1TiePool).1 = some 1 := by
  decide

/-! Claim C4. -/

/-- C4 counterexample: pinning page 9 into the full pool c4Pool evicts the
dirty victim holding page 5 (it is flushed, giving the single write event),
then the load fails; the target frame still reports page 5, not the empty
sentinel — the old page number was never cleared. -/
theorem c4_counterexample :
    (pinPage envSecondOpenFails c4Pool 9).rc = RC_FILE_NOT_FOUND ∧
    (pinPage envSecondOpenFails c4Pool 9).trace =
      [IoEv.writeAt (5 * PAGE_SIZE) (some 7)] ∧
    (fget (pinPage envSecondOpenFails c4Pool 9).pool 0).pageNum = 5 ∧
    (5 : Int) ≠ NO_PAGE := by
  decide

/-! Claim C7. -/

/-- C7 counterexample: the only frame of c7Pool is clean and pinned, yet
forceFlushOne for its page succeeds, performs a write, and increments the
write counter — the code neither skips pinned frames nor checks dirty. -/
theorem c7_counterexample :
    (fget c7Pool 0).dirty = false ∧
    0 < (fget c7Pool 0).fixCounts ∧
    (forcePage envAllOk 0 c7Pool 0).rc = RC_OK ∧
    (forcePage envAllOk 0 c7Pool 0).trace = [IoEv.writeAt (0 * PAGE_SIZE) (some 9)] ∧
    (forcePage envAllOk 0 c7Pool 0).pool.numberWriteIo = 1 := by
  decide

/-- C7 amended: forceFlushOne(pageNumber) fails with RC_PAGE_NOT_FOUND if no
frame holds pageNumber; otherwise it targets the first frame holding it and,
regardless of that frame's dirty flag and pin count, writes the frame's
content at offset pageNumber * PAGE_SIZE, increments the write counter, and
clears the dirty flag (or surfaces RC_FILE_NOT_FOUND if the file fails to
open, leaving the pool unchanged). -/
theorem c7_amended (env : Env) (p : PoolI) (pNum : Int) :
    (scanIdx (fun f => f.pageNum == pNum) p.frames = none →
      forcePage env 0 p pNum = ⟨RC_PAGE_NOT_FOUND, p, 0, []⟩) ∧
    (∀ i, scanIdx (fun f => f.pageNum == pNum) p.frames = some i →
      env.openOk 0 = true →
      forcePage env 0 p pNum =
        ⟨RC_OK,
         { p with frames := p.frames.set i (clearDirty (fget p i)),
                  numberWriteIo := p.numberWriteIo + 1 },
         1, [IoEv.writeAt (pNum * PAGE_SIZE) ((fget p i).data)]⟩) ∧
    (∀ i, scanIdx (fun f => f.pageNum == pNum) p.frames = some i →
      env.openOk 0 = false →
      forcePage env 0 p pNum = ⟨RC_FILE_NOT_FOUND, p, 1, []⟩) := by
  refine ⟨?_, ?_, ?_⟩
  · intro h
    simp [forcePage, h]
  · intro i h hok
    simp [forcePage, h, hok, clearDirty]
  · intro i h hok
    simp [forcePage, h, hok]

/-- C7 witness: the amended theorem applied to c7Pool (clean, pinned frame):
the write happens. -/
theorem c7_witness :
    scanIdx (fun f => f.pageNum == (0 : Int)) c7Pool.frames = some 0 ∧
    envAllOk.openOk 0 = true ∧
    (forcePage envAllOk 0 c7Pool 0).rc = RC_OK := by
  refine ⟨by decide, by decide, ?_⟩
  rw [(c7_amended envAllOk c7Pool 0).2.1 0 (by decide) (by decide)]

/-! Pool-level frame access lemmas. -/

lemma fget_frames_set_self {q : PoolI} (p : PoolI) (i : Nat) (f : BM_PageHandle)
    (hq : q.frames = p.frames.set i f) (h : i < p.frames.length) : fget q i = f := by
  unfold fget
  rw [hq]
  exact getD_set_self _ _ _ _ h

lemma fget_frames_set_ne {q : PoolI} (p : PoolI) (i j : Nat)
    (hq : ∃ f, q.frames = p.frames.set i f) (h : i ≠ j) : fget q j = fget p j := by
  obtain ⟨f, hq⟩ := hq
  unfold fget
  rw [hq]
  exact getD_set_ne _ _ _ _ _ h

/-! Claim C9. -/

/-- C9: if some frame is empty (the first frame with the sentinel page
number sits at index i, unpinned), then targeting the sentinel page number
matches that empty frame rather than failing with PageNotFound: markDirty
succeeds and marks the empty frame dirty, unpinPage returns
RC_PAGE_NOT_PINNED (not RC_PAGE_NOT_FOUND) leaving the pool unchanged, and
forceFlushOne does not return RC_PAGE_NOT_FOUND. -/
theorem c9_sentinel_matches_empty (env : Env) (p : PoolI) (i : Nat)
    (hempty : scanIdx (fun f => f.pageNum == NO_PAGE) p.frames = some i)
    (hfix : (fget p i).fixCounts = 0) :
    (markDirty p NO_PAGE).rc = RC_OK ∧
    fget (markDirty p NO_PAGE).pool i = { fget p i with dirty := true } ∧
    (fget p i).pageNum = NO_PAGE ∧
    (unpinPage p NO_PAGE).rc = RC_PAGE_NOT_PINNED ∧
    (unpinPage p NO_PAGE).pool = p ∧
    (forcePage env 0 p NO_PAGE).rc ≠ RC_PAGE_NOT_FOUND := by
  have hlt : i < p.frames.length := scanIdx_some_lt hempty
  have hpn : (fget p i).pageNum = NO_PAGE := by
    have := scanIdx_some_pred (d := emptyFrame) hempty
    simpa [fget] using this
  refine ⟨?_, ?_, hpn, ?_, ?_, ?_⟩
  · simp [markDirty, hempty]
  · refine fget_frames_set_self p i _ ?_ hlt
    simp [markDirty, hempty]
  · simp [unpinPage, hempty, hfix]
  · simp [unpinPage, hempty, hfix]
  · cases hok : env.openOk 0 <;> simp [forcePage, hempty, hok]

/-- C9 witness: the fresh capacity-1 pool c9Pool has its empty frame at
index 0 with fix count 0, and markDirty on the sentinel succeeds there. -/
theorem c9_witness :
    scanIdx (fun f => f.pageNum == NO_PAGE) c9Pool.frames = some 0 ∧
    (fget c9Pool 0).fixCounts = 0 ∧
    (markDirty c9Pool NO_PAGE).rc = RC_OK ∧
    (unpinPage c9Pool NO_PAGE).rc = RC_PAGE_NOT_PINNED := by
  refine ⟨by decide, by decide, ?_, ?_⟩
  · exact (c9_sentinel_matches_empty envAllOk c9Pool 0 (by decide) (by decide)).1
  · exact (c9_sentinel_matches_empty envAllOk c9Pool 0 (by decide) (by decide)).2.2.2.1

/-! Claim C8. -/

/-- C8: pinning a page that is already resident (first held by frame i)
succeeds with no disk access and unchanged read and write counters; frame
i's fix count is incremented by one and a copy of the updated frame is
returned; every other frame is unchanged; and the frame's replacement
attribute is refreshed to the current clock with the clock advanced exactly
when the strategy is recency-based (RS_LRU or RS_LRU_K), while otherwise
attribute and clock are untouched. -/
theorem c8_pin_resident (env : Env) (p : PoolI) (pNum : Int) (i : Nat)
    (hpos : 0 ≤ pNum)
    (hres : scanIdx (fun f => f.pageNum == pNum) p.frames = some i) :
    (pinPage env p pNum).rc = RC_OK ∧
    (pinPage env p pNum).trace = [] ∧
    (pinPage env p pNum).pool.numberReadIo = p.numberReadIo ∧
    (pinPage env p pNum).pool.numberWriteIo = p.numberWriteIo ∧
    (fget (pinPage env p pNum).pool i).fixCounts = (fget p i).fixCounts + 1 ∧
    (fget (pinPage env p pNum).pool i).pageNum = (fget p i).pageNum ∧
    (fget (pinPage env p pNum).pool i).data = (fget p i).data ∧
    (fget (pinPage env p pNum).pool i).dirty = (fget p i).dirty ∧
    (pinPage env p pNum).page = some (fget (pinPage env p pNum).pool i) ∧
    (∀ j, j < p.frames.length → j ≠ i → fget (pinPage env p pNum).pool j = fget p j) ∧
    ((p.strategy = RS_LRU ∨ p.strategy = RS_LRU_K) →
      (fget (pinPage env p pNum).pool i).strategyAttribute = some p.buffertimer ∧
      (pinPage env p pNum).pool.buffertimer = p.buffertimer + 1) ∧
    (¬(p.strategy = RS_LRU ∨ p.strategy = RS_LRU_K) →
      (fget (pinPage env p pNum).pool i).strategyAttribute =
        (fget p i).strategyAttribute ∧
      (pinPage env p pNum).pool.buffertimer = p.buffertimer) := by
  have hneg : ¬ pNum < 0 := not_lt.mpr hpos
  have hlt : i < p.frames.length := scanIdx_some_lt hres
  by_cases hs : p.strategy = RS_LRU ∨ p.strategy = RS_LRU_K
  · have hpin : pinPage env p pNum =
        { rc := RC_OK,
          pool := { p with buffertimer := p.buffertimer + 1,
                           frames := p.frames.set i
                             { fget p i with
                                 strategyAttribute := some p.buffertimer,
                                 fixCounts := (fget p i).fixCounts + 1 } },
          page := some { fget p i with
                           strategyAttribute := some p.buffertimer,
                           fixCounts := (fget p i).fixCounts + 1 },
          trace := [] } := by
      simp [pinPage, hneg, hres, hs, updateBfrAtrbt, fget]
    have hfget : fget (pinPage env p pNum).pool i =
        { fget p i with
            strategyAttribute := some p.buffertimer,
            fixCounts := (fget p i).fixCounts + 1 } := by
      refine fget_frames_set_self p i _ ?_ hlt
      rw [hpin]
    refine ⟨?_, ?_, ?_, ?_, ?_, ?_, ?_, ?_, ?_, ?_, ?_, ?_⟩
    · rw [hpin]
    · rw [hpin]
    · rw [hpin]
    · rw [hpin]
    · rw [hfget]
    · rw [hfget]
    · rw [hfget]
    · rw [hfget]
    · rw [hfget, hpin]
    · intro j hj hne
      exact fget_frames_set_ne p i j ⟨_, by rw [hpin]⟩ (Ne.symm hne)
    · intro _
      exact ⟨by rw [hfget], by rw [hpin]⟩
    · intro h
      exact absurd hs h
  · have hpin : pinPage env p pNum =
        { rc := RC_OK,
          pool := { p with frames := p.frames.set i
                             { fget p i with fixCounts := (fget p i).fixCounts + 1 } },
          page := some { fget p i with fixCounts := (fget p i).fixCounts + 1 },
          trace := [] } := by
      simp [pinPage, hneg, hres, hs, updateBfrAtrbt, fget]
    have hfget : fget (pinPage env p pNum).pool i =
        { fget p i with fixCounts := (fget p i).fixCounts + 1 } := by
      refine fget_frames_set_self p i _ ?_ hlt
      rw [hpin]
    refine ⟨?_, ?_, ?_, ?_, ?_, ?_, ?_, ?_, ?_, ?_, ?_, ?_⟩
    · rw [hpin]
    · rw [hpin]
    · rw [hpin]
    · rw [hpin]
    · rw [hfget]
    · rw [hfget]
    · rw [hfget]
    · rw [hfget]
    · rw [hfget, hpin]
    · intro j hj hne
      exact fget_frames_set_ne p i j ⟨_, by rw [hpin]⟩ (Ne.symm hne)
    · intro h
      exact absurd h hs
    · intro _
      exact ⟨by rw [hfget], by rw [hpin]⟩

/-- C8 witness: re-pinning resident page 0 in the capacity-1 LRU pool. -/
theorem c8_witness :
    (0 : Int) ≤ 0 ∧
    scanIdx (fun f => f.pageNum == (0 : Int)) (lruPool1 0).frames = some 0 ∧
    (pinPage envAllOk (lruPool1 0) 0).rc = RC_OK := by
  refine ⟨by decide, by decide, ?_⟩
  exact (c8_pin_resident envAllOk (lruPool1 0) 0 0 (by decide) (by decide)).1

/-- Effect of the load tail of pinPage when the fopen for the read fails:
the call returns RC_FILE_NOT_FOUND, the target frame keeps its page number
and dirty flag (only a missing data buffer gets allocated), and the trace is
exactly the accumulated prefix. -/
lemma loadInto_openFail (env : Env) (k : Nat) (p : PoolI) (i : Nat) (pNum : Int)
    (acc : List IoEv) (hk : env.openOk k = false) (hlt : i < p.frames.length) :
    (loadInto env k p i pNum acc).rc = RC_FILE_NOT_FOUND ∧
    (fget (loadInto env k p i pNum acc).pool i).pageNum = (fget p i).pageNum ∧
    (fget (loadInto env k p i pNum acc).pool i).dirty = (fget p i).dirty ∧
    (loadInto env k p i pNum acc).trace = acc := by
  unfold loadInto
  rw [hk]
  simp only [Bool.false_eq_true, if_false]
  have hfg : fget (loadInto env k p i pNum acc).pool i =
      (if (fget p i).data = none then { fget p i with data := some 0 } else fget p i) := by
    unfold loadInto
    rw [hk]
    simp only [Bool.false_eq_true, if_false]
    exact fget_frames_set_self p i _ rfl hlt
  unfold loadInto at hfg
  rw [hk] at hfg
  simp only [Bool.false_eq_true, if_false] at hfg
  rw [hfg]
  by_cases hd : (fget p i).data = none <;> simp [hd]

/-- C4 amended: when pinning a non-resident page into a full pool, if the
selected victim (frame i, here dirty, hence flushed by the first successful
fopen) has been evicted and the subsequent load fopen fails, the failed pin
returns RC_FILE_NOT_FOUND and the target frame retains the evicted page's
number — it is not cleared to the empty sentinel — with its dirty flag now
clear because of the eviction flush; the only disk access is that flush. -/
theorem c4_amended (env : Env) (p : PoolI) (pNum : Int) (i : Nat)
    (hpos : 0 ≤ pNum)
    (hres : scanIdx (fun f => f.pageNum == pNum) p.frames = none)
    (hempty : scanIdx (fun f => f.pageNum == NO_PAGE) p.frames = none)
    (hvict : (strategyForFIFOandLRU p).1 = some i)
    (hdirty : (fget (normalizeTimer p) i).dirty = true)
    (hmatch : scanIdx (fun f => f.pageNum == (fget (normalizeTimer p) i).pageNum)
        (normalizeTimer p).frames = some i)
    (hflush : env.openOk 0 = true)
    (hload : env.openOk 1 = false) :
    (pinPage env p pNum).rc = RC_FILE_NOT_FOUND ∧
    (fget (pinPage env p pNum).pool i).pageNum = (fget (normalizeTimer p) i).pageNum ∧
    (fget (pinPage env p pNum).pool i).dirty = false ∧
    (pinPage env p pNum).trace =
      [IoEv.writeAt ((fget (normalizeTimer p) i).pageNum * PAGE_SIZE)
        ((fget (normalizeTimer p) i).data)] := by
  have hneg : ¬ pNum < 0 := not_lt.mpr hpos
  have hlt : i < (normalizeTimer p).frames.length := scanIdx_some_lt hmatch
  have hforce : forcePage env 0 (normalizeTimer p) (fget (normalizeTimer p) i).pageNum =
      { rc := RC_OK,
        pool := { normalizeTimer p with
          frames := (normalizeTimer p).frames.set i
            { fget (normalizeTimer p) i with dirty := false },
          numberWriteIo := (normalizeTimer p).numberWriteIo + 1 },
        opens := 1,
        trace := [IoEv.writeAt ((fget (normalizeTimer p) i).pageNum * PAGE_SIZE)
          ((fget (normalizeTimer p) i).data)] } := by
    simp [forcePage, hmatch, hflush]
  have hfgetF : fget (forcePage env 0 (normalizeTimer p)
      (fget (normalizeTimer p) i).pageNum).pool i =
      { fget (normalizeTimer p) i with dirty := false } := by
    refine fget_frames_set_self (normalizeTimer p) i _ ?_ hlt
    rw [hforce]
  have hqlt : i < (forcePage env 0 (normalizeTimer p)
      (fget (normalizeTimer p) i).pageNum).pool.frames.length := by
    rw [hforce]
    simpa using hlt
  have hsnd : (strategyForFIFOandLRU p).2 = normalizeTimer p := rfl
  have hpin : pinPage env p pNum =
      loadInto env (forcePage env 0 (normalizeTimer p)
          (fget (normalizeTimer p) i).pageNum).opens
        (forcePage env 0 (normalizeTimer p) (fget (normalizeTimer p) i).pageNum).pool
        i pNum
        (forcePage env 0 (normalizeTimer p) (fget (normalizeTimer p) i).pageNum).trace := by
    simp only [pinPage, if_neg hneg, hres, hempty]
    rw [hvict]
    simp only [hsnd, hdirty, if_true]
    rw [hforce]
    simp
  have hopens : (forcePage env 0 (normalizeTimer p)
      (fget (normalizeTimer p) i).pageNum).opens = 1 := by
    rw [hforce]
  have htr : (forcePage env 0 (normalizeTimer p)
      (fget (normalizeTimer p) i).pageNum).trace =
      [IoEv.writeAt ((fget (normalizeTimer p) i).pageNum * PAGE_SIZE)
        ((fget (normalizeTimer p) i).data)] := by
    rw [hforce]
  have hfail := loadInto_openFail env (forcePage env 0 (normalizeTimer p)
      (fget (normalizeTimer p) i).pageNum).opens
    (forcePage env 0 (normalizeTimer p) (fget (normalizeTimer p) i).pageNum).pool
    i pNum
    (forcePage env 0 (normalizeTimer p) (fget (normalizeTimer p) i).pageNum).trace
    (by rw [hopens]; exact hload) hqlt
  rw [hpin]
  refine ⟨hfail.1, ?_, ?_, ?_⟩
  · rw [hfail.2.1, hfgetF]
  · rw [hfail.2.2.1, hfgetF]
  · rw [hfail.2.2.2, htr]

/-- C4 witness: the amended behaviour at the concrete full pool c4Pool. -/
theorem c4_witness :
    (strategyForFIFOandLRU c4Pool).1 = some 0 ∧
    (fget (normalizeTimer c4Pool) 0).dirty = true ∧
    (pinPage envSecondOpenFails c4Pool 9).rc = RC_FILE_NOT_FOUND := by
  refine ⟨by decide, by decide, ?_⟩
  exact (c4_amended envSecondOpenFails c4Pool 9 0 (by decide) (by decide) (by decide)
    (by decide) (by decide) (by decide) (by decide) (by decide)).1

/-! Victim-selector characterization (claim C1). -/

lemma lastIdx?_eq_none : ∀ {l : List (Nat × Int)}, lastIdx? l = none ↔ l = [] := by
  intro l
  cases l with
  | nil => simp [lastIdx?]
  | cons q rest =>
    simp only [lastIdx?]
    cases lastIdx? rest <;> simp

lemma minSnd_le_init : ∀ (l : List (Nat × Int)) (m : Int), minSnd l m ≤ m
  | [], _ => le_refl _
  | q :: rest, m =>
    le_trans (minSnd_le_init rest (min m q.2)) (min_le_left _ _)

lemma minSnd_le_mem : ∀ (l : List (Nat × Int)) (m : Int) (q : Nat × Int),
    q ∈ l → minSnd l m ≤ q.2 := by
  intro l
  induction l with
  | nil => intro m q h; simp at h
  | cons x rest ih =>
    intro m q h
    rcases List.mem_cons.mp h with rfl | h
    · exact le_trans (minSnd_le_init rest (min m q.2)) (min_le_right _ _)
    · exact ih (min m x.2) q h

lemma minSnd_lt_attained : ∀ (l : List (Nat × Int)) (m : Int),
    minSnd l m < m → ∃ q ∈ l, q.2 = minSnd l m := by
  intro l
  induction l with
  | nil => intro m h; exact absurd h (lt_irrefl m)
  | cons x rest ih =>
    intro m h
    simp only [minSnd] at h ⊢
    by_cases hx : minSnd rest (min m x.2) < min m x.2
    · obtain ⟨q, hq, hq2⟩ := ih (min m x.2) hx
      exact ⟨q, List.mem_cons_of_mem _ hq, hq2⟩
    · have heq : minSnd rest (min m x.2) = min m x.2 :=
        le_antisymm (minSnd_le_init _ _) (not_lt.mp hx)
      have hx2 : min m x.2 = x.2 := by
        rcases le_or_lt m x.2 with hle | hlt2
        · exfalso
          rw [heq, min_eq_left hle] at h
          exact lt_irrefl m h
        · exact min_eq_right (le_of_lt hlt2)
      exact ⟨x, List.mem_cons_self _ _, by rw [heq, hx2]⟩

lemma minSnd_min : ∀ (l : List (Nat × Int)) (m n : Int),
    minSnd l (min m n) = min (minSnd l m) n
  | [], _, _ => rfl
  | q :: rest, m, n => by
    simp only [minSnd]
    rw [show min (min m n) q.2 = min (min m q.2) n by
      rw [min_assoc, min_comm n q.2, min_assoc],
      minSnd_min rest (min m q.2) n]

lemma foldMin_eq : ∀ (l : List (Nat × Int)) (m : Int) (v : Option Nat),
    foldMin l m v =
      match lastIdx? (l.filter (fun q => q.2 == minSnd l m)) with
      | none => v
      | some j => some j := by
  intro l
  induction l with
  | nil => intro m v; simp [foldMin, minSnd, lastIdx?]
  | cons x rest ih =>
    intro m v
    obtain ⟨i, a⟩ := x
    have hmcons : ∀ mm : Int, minSnd ((i, a) :: rest) mm = minSnd rest (min mm a) := by
      intro mm
      rfl
    by_cases h : a ≤ m
    · have hmn : minSnd ((i, a) :: rest) m = minSnd rest a := by
        rw [hmcons, min_eq_right h]
      rw [show foldMin ((i, a) :: rest) m v = foldMin rest a (some i) by
        simp [foldMin, h]]
      rw [ih a (some i), hmn]
      cases hr : lastIdx? (rest.filter (fun q => q.2 == minSnd rest a)) with
      | some j =>
        by_cases hh : (a == minSnd rest a) = true
        · simp [List.filter_cons, hh, lastIdx?, hr]
        · simp [List.filter_cons, hh, lastIdx?, hr]
      | none =>
        have hrestnil : rest.filter (fun q => q.2 == minSnd rest a) = [] :=
          lastIdx?_eq_none.mp hr
        have hma : minSnd rest a = a := by
          rcases lt_or_eq_of_le (minSnd_le_init rest a) with hlt | he
          · obtain ⟨q, hq, hq2⟩ := minSnd_lt_attained rest a hlt
            exfalso
            have hmem : q ∈ rest.filter (fun q => q.2 == minSnd rest a) :=
              List.mem_filter.mpr ⟨hq, by simp [hq2]⟩
            rw [hrestnil] at hmem
            simp at hmem
          · exact he
        rw [hma] at hrestnil
        simp [List.filter_cons, hma, hrestnil, lastIdx?]
    · have hlt : m < a := not_le.mp h
      have hmn : minSnd ((i, a) :: rest) m = minSnd rest m := by
        rw [hmcons, min_eq_left (le_of_lt hlt)]
      rw [show foldMin ((i, a) :: rest) m v = foldMin rest m v by
        simp [foldMin, h]]
      rw [ih m v, hmn]
      have hhead : (a == minSnd rest m) = false := by
        have h1 : minSnd rest m ≤ m := minSnd_le_init rest m
        have h2 : minSnd rest m < a := lt_of_le_of_lt h1 hlt
        simp only [beq_eq_false_iff_ne, ne_eq]
        intro hc
        rw [hc] at h2
        exact lt_irrefl _ h2
      simp [List.filter_cons, hhead]

lemma selectLoop_firstNone :
    ∀ (l : List (Nat × BM_PageHandle)) (m : Int) (v : Option Nat) (i : Nat),
      firstNoneIdx? l = some i → selectLoop l m v = some i := by
  intro l
  induction l with
  | nil => intro m v i h; simp [firstNoneIdx?] at h
  | cons x rest ih =>
    intro m v i h
    obtain ⟨j, f⟩ := x
    by_cases hc : (f.fixCounts == 0 && f.strategyAttribute.isNone) = true
    · simp only [firstNoneIdx?, hc, if_true, Option.some.injEq] at h
      subst h
      obtain ⟨h0, hnone⟩ : (f.fixCounts == 0) = true ∧
          f.strategyAttribute.isNone = true := by simpa using hc
      have hfix : f.fixCounts = 0 := by simpa using h0
      have hattr : f.strategyAttribute = none := Option.isNone_iff_eq_none.mp hnone
      simp [selectLoop, hfix, hattr]
    · simp only [firstNoneIdx?, hc, if_false] at h
      by_cases hfix : f.fixCounts = 0
      · have hfixb : (f.fixCounts == 0) = true := by simp [hfix]
        have hattr : f.strategyAttribute.isNone = false := by
          cases hio : f.strategyAttribute.isNone
          · rfl
          · rw [hfixb, hio] at hc
            simp at hc

        have hne : f.strategyAttribute ≠ none := by
          intro hcon
          rw [hcon] at hattr
          simp at hattr
        obtain ⟨a, ha⟩ := Option.ne_none_iff_exists'.mp hne
        by_cases hle : a ≤ m
        · rw [show selectLoop ((j, f) :: rest) m v = selectLoop rest a (some j) by
            simp [selectLoop, hfix, ha, hle]]
          exact ih a (some j) i h
        · rw [show selectLoop ((j, f) :: rest) m v = selectLoop rest m v by
            simp [selectLoop, hfix, ha, hle]]
          exact ih m v i h
      · rw [show selectLoop ((j, f) :: rest) m v = selectLoop rest m v by
          simp [selectLoop, hfix]]
        exact ih m v i h

lemma selectLoop_noNone :
    ∀ (l : List (Nat × BM_PageHandle)) (m : Int) (v : Option Nat),
      firstNoneIdx? l = none → selectLoop l m v = foldMin (eligOf l) m v := by
  intro l
  induction l with
  | nil => intro m v _; rfl
  | cons x rest ih =>
    intro m v h
    obtain ⟨j, f⟩ := x
    have hc : (f.fixCounts == 0 && f.strategyAttribute.isNone) = false := by
      cases hh : (f.fixCounts == 0 && f.strategyAttribute.isNone)
      · rfl
      · exfalso
        simp only [firstNoneIdx?, hh, if_true] at h
        exact Option.some_ne_none _ h
    have hrest : firstNoneIdx? rest = none := by
      simpa only [firstNoneIdx?, hc, if_false] using h
    by_cases hfix : f.fixCounts = 0
    · have hfixb : (f.fixCounts == 0) = true := by simp [hfix]
      have hattr : f.strategyAttribute.isNone = false := by
        cases hio : f.strategyAttribute.isNone
        · rfl
        · rw [hfixb, hio] at hc
          simp at hc
      have hne : f.strategyAttribute ≠ none := by
        intro hcon
        rw [hcon] at hattr
        simp at hattr
      obtain ⟨a, ha⟩ := Option.ne_none_iff_exists'.mp hne
      have helig : eligOf ((j, f) :: rest) = (j, a) :: eligOf rest := by
        simp [eligOf, hfix, ha]
      rw [helig]
      by_cases hle : a ≤ m
      · rw [show selectLoop ((j, f) :: rest) m v = selectLoop rest a (some j) by
          simp [selectLoop, hfix, ha, hle]]
        rw [show foldMin ((j, a) :: eligOf rest) m v = foldMin (eligOf rest) a (some j) by
          simp [foldMin, hle]]
        exact ih a (some j) hrest
      · rw [show selectLoop ((j, f) :: rest) m v = selectLoop rest m v by
          simp [selectLoop, hfix, ha, hle]]
        rw [show foldMin ((j, a) :: eligOf rest) m v = foldMin (eligOf rest) m v by
          simp [foldMin, hle]]
        exact ih m v hrest
    · have helig : eligOf ((j, f) :: rest) = eligOf rest := by
        simp [eligOf, hfix]
      rw [helig]
      rw [show selectLoop ((j, f) :: rest) m v = selectLoop rest m v by
        simp [selectLoop, hfix]]
      exact ih m v hrest

/-- C1 amended: the victim selector, on any pool, returns exactly what
specVictim describes: the first unpinned frame without a replacement
attribute if one exists (the scan short-circuits there); otherwise, among
unpinned frames with an attribute, the frame with the smallest attribute
value provided that value does not exceed the pool clock, with ties broken
by the HIGHEST frame index (the comparison is <= against the running
minimum, so a later equal attribute wins); if the smallest eligible
attribute exceeds the clock, no victim is returned. -/
theorem c1_amended (p : PoolI) :
    (strategyForFIFOandLRU p).1 = specVictim p.frames p.buffertimer := by
  show selectLoop (enumFrom 0 p.frames) p.buffertimer none =
    specVictim p.frames p.buffertimer
  unfold specVictim
  cases hfn : firstNoneIdx? (enumFrom 0 p.frames) with
  | some i => rw [selectLoop_firstNone _ _ _ _ hfn]
  | none =>
    rw [selectLoop_noNone _ _ _ hfn]
    cases helig : eligOf (enumFrom 0 p.frames) with
    | nil => rfl
    | cons q qs =>
      rw [foldMin_eq]
      have hmn : minSnd (q :: qs) p.buffertimer = min (minSnd qs q.2) p.buffertimer := by
        show minSnd qs (min p.buffertimer q.2) = _
        rw [min_comm p.buffertimer q.2, minSnd_min]
      by_cases hle : minSnd qs q.2 ≤ p.buffertimer
      · rw [hmn, min_eq_left hle]
        simp only [hle, if_true]
        cases lastIdx? ((q :: qs).filter (fun r => r.2 == minSnd qs q.2)) <;> rfl
      · have hlt : p.buffertimer < minSnd qs q.2 := not_le.mp hle
        rw [hmn, min_eq_right (le_of_lt hlt)]
        have hnil : (q :: qs).filter (fun r => r.2 == p.buffertimer) = [] := by
          rw [List.filter_eq_nil_iff]
          intro r hr
          have hge : minSnd qs q.2 ≤ r.2 := by
            rcases List.mem_cons.mp hr with rfl | hr
            · exact minSnd_le_init qs r.2
            · exact minSnd_le_mem qs q.2 r hr
          have : p.buffertimer < r.2 := lt_of_lt_of_le hlt hge
          simp only [beq_eq_false_iff_ne, ne_eq, Bool.not_eq_true]
          intro hc
          rw [hc] at this
          exact absurd this (lt_irrefl _)
        rw [hnil]
        simp [lastIdx?, hle]

/-! Membership lemmas for enumFrom and scanIdx, and selectLoop facts. -/

lemma mem_iff_getD {α : Type} {d : α} : ∀ {l : List α} {f : α},
    f ∈ l ↔ ∃ i, i < l.length ∧ l.getD i d = f := by
  intro l
  induction l with
  | nil => intro f; simp
  | cons x xs ih =>
    intro f
    constructor
    · intro h
      rcases List.mem_cons.mp h with rfl | h
      · exact ⟨0, by simp, rfl⟩
      · obtain ⟨i, hi, hg⟩ := ih.mp h
        exact ⟨i + 1, by simpa using hi, hg⟩
    · rintro ⟨i, hi, rfl⟩
      exact getD_mem _ _ _ hi

lemma enumFrom_mem : ∀ (l : List BM_PageHandle) (k j : Nat) (f : BM_PageHandle),
    (j, f) ∈ enumFrom k l →
      ∃ t, t < l.length ∧ j = k + t ∧ l.getD t emptyFrame = f := by
  intro l
  induction l with
  | nil => intro k j f h; simp [enumFrom] at h
  | cons x xs ih =>
    intro k j f h
    rcases List.mem_cons.mp h with heq | h
    · have h1 : j = k := congrArg Prod.fst heq
      have h2 : f = x := congrArg Prod.snd heq
      exact ⟨0, by simp, by omega, h2.symm⟩
    · obtain ⟨t, ht, hj, hg⟩ := ih (k + 1) j f h
      exact ⟨t + 1, by simpa using ht, by omega, hg⟩

lemma enumFrom_mem_of_lt : ∀ (l : List BM_PageHandle) (k t : Nat),
    t < l.length → (k + t, l.getD t emptyFrame) ∈ enumFrom k l := by
  intro l
  induction l with
  | nil => intro k t h; simp at h
  | cons x xs ih =>
    intro k t h
    cases t with
    | zero => simp [enumFrom]
    | succ t =>
      have := ih (k + 1) t (by simpa using h)
      have hrw : k + 1 + t = k + (t + 1) := by omega
      rw [hrw] at this
      exact List.mem_cons_of_mem _ this

lemma selectLoop_all_pinned :
    ∀ (l : List (Nat × BM_PageHandle)) (m : Int) (v : Option Nat),
      (∀ q ∈ l, q.2.fixCounts ≠ 0) → selectLoop l m v = v := by
  intro l
  induction l with
  | nil => intro m v _; rfl
  | cons x rest ih =>
    intro m v h
    obtain ⟨j, f⟩ := x
    have hf : f.fixCounts ≠ 0 := h (j, f) (List.mem_cons_self _ _)
    rw [show selectLoop ((j, f) :: rest) m v = selectLoop rest m v by
      simp [selectLoop, hf]]
    exact ih m v (fun q hq => h q (List.mem_cons_of_mem _ hq))

lemma selectLoop_some_stays :
    ∀ (l : List (Nat × BM_PageHandle)) (m : Int) (j : Nat),
      selectLoop l m (some j) ≠ none := by
  intro l
  induction l with
  | nil => intro m j h; simp [selectLoop] at h
  | cons x rest ih =>
    intro m j
    obtain ⟨i, f⟩ := x
    by_cases hf : f.fixCounts = 0
    · cases ha : f.strategyAttribute with
      | none => simp [selectLoop, hf, ha]
      | some a =>
        by_cases hle : a ≤ m
        · rw [show selectLoop ((i, f) :: rest) m (some j) = selectLoop rest a (some i) by
            simp [selectLoop, hf, ha, hle]]
          exact ih a i
        · rw [show selectLoop ((i, f) :: rest) m (some j) = selectLoop rest m (some j) by
            simp [selectLoop, hf, ha, hle]]
          exact ih m j
    · rw [show selectLoop ((i, f) :: rest) m (some j) = selectLoop rest m (some j) by
        simp [selectLoop, hf]]
      exact ih m j

lemma selectLoop_some_of_unpinned :
    ∀ (l : List (Nat × BM_PageHandle)) (m : Int) (v : Option Nat),
      (∀ q ∈ l, ∀ a, (q.2 : BM_PageHandle).strategyAttribute = some a → a ≤ m) →
      (∃ q ∈ l, (q.2 : BM_PageHandle).fixCounts = 0) →
      selectLoop l m v ≠ none := by
  intro l
  induction l with
  | nil => intro m v _ hex; simp at hex
  | cons x rest ih =>
    intro m v hattr hex
    obtain ⟨i, f⟩ := x
    by_cases hf : f.fixCounts = 0
    · cases ha : f.strategyAttribute with
      | none => simp [selectLoop, hf, ha]
      | some a =>
        have hle : a ≤ m := hattr (i, f) (List.mem_cons_self _ _) a ha
        rw [show selectLoop ((i, f) :: rest) m v = selectLoop rest a (some i) by
          simp [selectLoop, hf, ha, hle]]
        exact selectLoop_some_stays rest a i
    · rw [show selectLoop ((i, f) :: rest) m v = selectLoop rest m v by
        simp [selectLoop, hf]]
      obtain ⟨q, hq, hq0⟩ := hex
      rcases List.mem_cons.mp hq with rfl | hq
      · exact absurd hq0 hf
      · exact ih m v (fun q hq a ha => hattr q (List.mem_cons_of_mem _ hq) a ha) ⟨q, hq, hq0⟩

lemma selectLoop_some_mem :
    ∀ (l : List (Nat × BM_PageHandle)) (m : Int) (v : Option Nat) (j : Nat),
      selectLoop l m v = some j → (∃ f, (j, f) ∈ l) ∨ v = some j := by
  intro l
  induction l with
  | nil => intro m v j h; exact Or.inr h
  | cons x rest ih =>
    intro m v j h
    obtain ⟨i, f⟩ := x
    by_cases hf : f.fixCounts = 0
    · cases ha : f.strategyAttribute with
      | none =>
        rw [show selectLoop ((i, f) :: rest) m v = some i by
          simp [selectLoop, hf, ha]] at h
        obtain rfl : i = j := by simpa using h
        exact Or.inl ⟨f, List.mem_cons_self _ _⟩
      | some a =>
        by_cases hle : a ≤ m
        · rw [show selectLoop ((i, f) :: rest) m v = selectLoop rest a (some i) by
            simp [selectLoop, hf, ha, hle]] at h
          rcases ih a (some i) j h with ⟨g, hg⟩ | hv
          · exact Or.inl ⟨g, List.mem_cons_of_mem _ hg⟩
          · obtain rfl : i = j := by simpa using hv
            exact Or.inl ⟨f, List.mem_cons_self _ _⟩
        · rw [show selectLoop ((i, f) :: rest) m v = selectLoop rest m v by
            simp [selectLoop, hf, ha, hle]] at h
          rcases ih m v j h with ⟨g, hg⟩ | hv
          · exact Or.inl ⟨g, List.mem_cons_of_mem _ hg⟩
          · exact Or.inr hv
    · rw [show selectLoop ((i, f) :: rest) m v = selectLoop rest m v by
        simp [selectLoop, hf]] at h
      rcases ih m v j h with ⟨g, hg⟩ | hv
      · exact Or.inl ⟨g, List.mem_cons_of_mem _ hg⟩
      · exact Or.inr hv

/-! Invariant preservation machinery. -/

lemma sameSkeleton_refl (p : PoolI) : SameSkeleton p p :=
  ⟨rfl, rfl, fun _ _ => ⟨rfl, rfl, rfl⟩⟩

lemma sameSkeleton_trans {p q r : PoolI} (h1 : SameSkeleton p q)
    (h2 : SameSkeleton q r) : SameSkeleton p r := by
  obtain ⟨hl1, ht1, hp1⟩ := h1
  obtain ⟨hl2, ht2, hp2⟩ := h2
  refine ⟨hl2.trans hl1, ht2.trans ht1, ?_⟩
  intro j hj
  obtain ⟨a1, b1, c1⟩ := hp1 j hj
  obtain ⟨a2, b2, c2⟩ := hp2 j (by rw [hl1]; exact hj)
  exact ⟨a2.trans a1, b2.trans b1, c2.trans c1⟩

lemma sameSkeleton_of_set {q : PoolI} (p : PoolI) (i : Nat) (f' : BM_PageHandle)
    (hfr : q.frames = p.frames.set i f')
    (ht : q.buffertimer = p.buffertimer)
    (hpn : f'.pageNum = (fget p i).pageNum)
    (hfx : f'.fixCounts = (fget p i).fixCounts)
    (hat : f'.strategyAttribute = (fget p i).strategyAttribute) :
    SameSkeleton p q := by
  refine ⟨by rw [hfr, List.length_set], ht, ?_⟩
  intro j hj
  by_cases hji : j = i
  · subst hji
    rw [fget_frames_set_self p j f' hfr hj]
    exact ⟨hpn, hfx, hat⟩
  · rw [fget_frames_set_ne p i j ⟨f', hfr⟩ (fun hc => hji hc.symm)]
    exact ⟨rfl, rfl, rfl⟩

lemma invI_of_sameSkeleton {p q : PoolI} (hs : SameSkeleton p q) (h : InvI p) :
    InvI q := by
  obtain ⟨hlen, ht, hpt⟩ := hs
  obtain ⟨hU, hE, hA⟩ := h
  refine ⟨?_, ?_, ?_⟩
  · intro i j hi hj hne heq
    rw [hlen] at hi hj
    obtain ⟨hpi, _, _⟩ := hpt i hi
    obtain ⟨hpj, _, _⟩ := hpt j hj
    rw [hpi, hpj] at heq
    rw [hpi]
    exact hU i j hi hj hne heq
  · intro i hi hpn0
    rw [hlen] at hi
    obtain ⟨hpi, hfi, _⟩ := hpt i hi
    rw [hfi]
    exact hE i hi (by rw [← hpi]; exact hpn0)
  · intro i hi a ha
    rw [hlen] at hi
    obtain ⟨_, _, hai⟩ := hpt i hi
    rw [ht]
    exact hA i hi a (by rw [← hai]; exact ha)

/-- Invariant preservation for a single frame replacement: the clock may only
grow, the new frame either keeps its page number or takes a fresh
non-sentinel one, empty implies unpinned for the new frame, and the new
attribute (if present) is bounded by the new clock. -/
lemma invI_of_set {q : PoolI} (p : PoolI) (i : Nat) (f' : BM_PageHandle)
    (hfr : q.frames = p.frames.set i f')
    (ht : p.buffertimer ≤ q.buffertimer)
    (hpn : f'.pageNum = (fget p i).pageNum ∨
      (f'.pageNum ≠ NO_PAGE ∧ ∀ j, j < p.frames.length →
        (fget p j).pageNum ≠ f'.pageNum))
    (hEi : f'.pageNum = NO_PAGE → f'.fixCounts = 0)
    (hAi : ∀ a, f'.strategyAttribute = some a → a ≤ q.buffertimer)
    (h : InvI p) : InvI q := by
  obtain ⟨hU, hE, hA⟩ := h
  have hlen : q.frames.length = p.frames.length := by rw [hfr, List.length_set]
  have hq_at : ∀ j, j < p.frames.length → j ≠ i → fget q j = fget p j :=
    fun j _ hji => fget_frames_set_ne p i j ⟨f', hfr⟩ (fun hc => hji hc.symm)
  have hq_i : i < p.frames.length → fget q i = f' :=
    fun hi => fget_frames_set_self p i f' hfr hi
  refine ⟨?_, ?_, ?_⟩
  · intro a b ha hb hne heq
    rw [hlen] at ha hb
    by_cases hai : a = i
    · subst hai
      rw [hq_i ha] at heq ⊢
      by_cases hbi : b = a
      · exact absurd hbi (by omega)
      · rw [hq_at b hb hbi] at heq
        rcases hpn with hsame | ⟨hfr2, hfresh⟩
        · rw [hsame] at heq ⊢
          exact hU a b ha hb hne heq
        · exact absurd heq.symm (hfresh b hb)
    · rw [hq_at a ha hai] at heq ⊢
      by_cases hbi : b = i
      · subst hbi
        rw [hq_i hb] at heq
        rcases hpn with hsame | ⟨hfr2, hfresh⟩
        · rw [hsame] at heq
          exact hU a b ha hb hne heq
        · exact absurd heq (hfresh a ha)
      · rw [hq_at b hb hbi] at heq
        exact hU a b ha hb hne heq
  · intro j hj hpn0
    rw [hlen] at hj
    by_cases hji : j = i
    · subst hji
      rw [hq_i hj] at hpn0 ⊢
      exact hEi hpn0
    · rw [hq_at j hj hji] at hpn0 ⊢
      exact hE j hj hpn0
  · intro j hj a ha
    rw [hlen] at hj
    by_cases hji : j = i
    · subst hji
      rw [hq_i hj] at ha
      exact hAi a ha
    · rw [hq_at j hj hji] at ha
      exact le_trans (hA j hj a ha) ht

lemma forcePage_sameSkeleton (env : Env) (k : Nat) (p : PoolI) (pNum : Int) :
    SameSkeleton p (forcePage env k p pNum).pool := by
  cases hscan : scanIdx (fun f => f.pageNum == pNum) p.frames with
  | none =>
    simp only [forcePage, hscan]
    exact sameSkeleton_refl p
  | some i =>
    cases hok : env.openOk k with
    | false =>
      simp only [forcePage, hscan, hok, Bool.false_eq_true, if_false]
      exact sameSkeleton_refl p
    | true =>
      simp only [forcePage, hscan, hok, if_true]
      exact sameSkeleton_of_set p i _ rfl rfl rfl rfl rfl

lemma flushLoop_sameSkeleton (env : Env) :
    ∀ (idxs : List Nat) (k : Nat) (p : PoolI) (acc : List IoEv),
      SameSkeleton p (flushLoop env idxs k p acc).pool := by
  intro idxs
  induction idxs with
  | nil => intro k p acc; exact sameSkeleton_refl p
  | cons i rest ih =>
    intro k p acc
    by_cases hc : ((fget p i).dirty && (fget p i).fixCounts == 0) = true
    · by_cases hrc : (forcePage env k p (fget p i).pageNum).rc = RC_OK
      · rw [show flushLoop env (i :: rest) k p acc =
            flushLoop env rest (forcePage env k p (fget p i).pageNum).opens
              { (forcePage env k p (fget p i).pageNum).pool with
                frames := (forcePage env k p (fget p i).pageNum).pool.frames.set i
                  { fget (forcePage env k p (fget p i).pageNum).pool i with
                      dirty := false } }
              (acc ++ (forcePage env k p (fget p i).pageNum).trace) by
          simp [flushLoop, hc, hrc]]
        refine sameSkeleton_trans ?_ (ih _ _ _)
        refine sameSkeleton_trans (forcePage_sameSkeleton env k p (fget p i).pageNum) ?_
        exact sameSkeleton_of_set _ i _ rfl rfl rfl rfl rfl
      · rw [show flushLoop env (i :: rest) k p acc =
            { forcePage env k p (fget p i).pageNum with
              trace := acc ++ (forcePage env k p (fget p i).pageNum).trace } by
          simp [flushLoop, hc, hrc]]
        exact forcePage_sameSkeleton env k p (fget p i).pageNum
    · rw [show flushLoop env (i :: rest) k p acc = flushLoop env rest k p acc by
        simp [flushLoop, hc]]
      exact ih k p acc

lemma forceFlushPool_sameSkeleton (env : Env) (p : PoolI) :
    SameSkeleton p (forceFlushPool env p).pool :=
  flushLoop_sameSkeleton env (List.range p.frames.length) 0 p []

lemma markDirty_sameSkeleton (p : PoolI) (pNum : Int) :
    SameSkeleton p (markDirty p pNum).pool := by
  cases hscan : scanIdx (fun f => f.pageNum == pNum) p.frames with
  | none =>
    simp only [markDirty, hscan]
    exact sameSkeleton_refl p
  | some i =>
    simp only [markDirty, hscan]
    exact sameSkeleton_of_set p i _ rfl rfl rfl rfl rfl

lemma unpinPage_invI (p : PoolI) (pNum : Int) (h : InvI p) :
    InvI (unpinPage p pNum).pool := by
  cases hscan : scanIdx (fun f => f.pageNum == pNum) p.frames with
  | none =>
    simpa only [unpinPage, hscan] using h
  | some i =>
    by_cases hfx : (fget p i).fixCounts > 0
    · simp only [unpinPage, hscan, hfx, if_true]
      refine invI_of_set p i _ rfl (le_refl _) (Or.inl rfl) ?_ ?_ h
      · intro hpn0
        exact absurd (h.2.1 i (scanIdx_some_lt hscan) hpn0) (by omega)
      · intro a ha
        exact h.2.2 i (scanIdx_some_lt hscan) a ha
    · simpa only [unpinPage, hscan, hfx, if_false] using h

lemma normalizeTimer_invI (p : PoolI) (h : InvI p) : InvI (normalizeTimer p) := by
  unfold normalizeTimer
  by_cases hb : p.buffertimer > 32000
  · simp only [hb, if_true]
    obtain ⟨hU, hE, hA⟩ := h
    have hpt : ∀ j, j < p.frames.length →
        (p.frames.map (fun f =>
          match f.strategyAttribute with
          | none => f
          | some _ => { f with strategyAttribute := some 0 })).getD j emptyFrame =
        (match (fget p j).strategyAttribute with
         | none => fget p j
         | some _ => { fget p j with strategyAttribute := some 0 }) := by
      intro j hj
      exact getD_map_lt _ p.frames j emptyFrame emptyFrame hj
    have hproj : ∀ f : BM_PageHandle,
        ((match f.strategyAttribute with
          | none => f
          | some _ => { f with strategyAttribute := some 0 }) : BM_PageHandle).pageNum
          = f.pageNum ∧
        ((match f.strategyAttribute with
          | none => f
          | some _ => { f with strategyAttribute := some 0 }) : BM_PageHandle).fixCounts
          = f.fixCounts := by
      intro f
      cases f.strategyAttribute <;> exact ⟨rfl, rfl⟩
    refine ⟨?_, ?_, ?_⟩
    · intro a b ha hb2 hne heq
      simp only [fget, List.length_map] at ha hb2 heq ⊢
      rw [hpt a ha, hpt b hb2] at heq
      rw [hpt a ha]
      rw [(hproj (fget p a)).1, (hproj (fget p b)).1] at heq
      rw [(hproj (fget p a)).1]
      exact hU a b ha hb2 hne heq
    · intro j hj hpn0
      simp only [fget, List.length_map] at hj hpn0 ⊢
      rw [hpt j hj] at hpn0 ⊢
      rw [(hproj (fget p j)).1] at hpn0
      rw [(hproj (fget p j)).2]
      exact hE j hj hpn0
    · intro j hj a ha
      simp only [fget, List.length_map] at hj ha
      rw [hpt j hj] at ha
      cases hfa : (fget p j).strategyAttribute with
      | none =>
        simp [hfa] at ha
      | some b =>
        simp [hfa] at ha
        show a ≤ (0 : Int)
        omega
  · simpa only [hb, if_false] using h

lemma initFresh_invI (n : Nat) (strat : ReplacementStrategy) :
    InvI { strategy := strat, numberReadIo := 0, numberWriteIo := 0,
           buffertimer := 0, frames := List.replicate n emptyFrame } := by
  have hg : ∀ i, i < n →
      fget { strategy := strat, numberReadIo := 0, numberWriteIo := 0,
             buffertimer := 0, frames := List.replicate n emptyFrame } i =
      emptyFrame :=
    fun i hi => getD_replicate_lt n i emptyFrame emptyFrame hi
  refine ⟨?_, ?_, ?_⟩
  · intro i j hi hj hne heq
    simp only [List.length_replicate] at hi hj
    rw [hg i hi]
    rfl
  · intro i hi hpn0
    simp only [List.length_replicate] at hi
    rw [hg i hi]
    rfl
  · intro i hi a ha
    simp only [List.length_replicate] at hi
    rw [hg i hi] at ha
    exact absurd ha (by simp [emptyFrame])

lemma scanIdx_none_getD {pred : BM_PageHandle → Bool} {l : List BM_PageHandle}
    (h : scanIdx pred l = none) :
    ∀ i, i < l.length → pred (l.getD i emptyFrame) = false :=
  fun i hi => (scanIdx_eq_none.mp h) _ (getD_mem l i emptyFrame hi)

lemma loadInto_invI (env : Env) (k : Nat) (p : PoolI) (i : Nat) (pNum : Int)
    (acc : List IoEv) (hi : i < p.frames.length) (hpos : 0 ≤ pNum)
    (hfresh : ∀ j, j < p.frames.length → (fget p j).pageNum ≠ pNum)
    (h : InvI p) : InvI (loadInto env k p i pNum acc).pool := by
  have hne : pNum ≠ NO_PAGE := by
    simp only [NO_PAGE]
    omega
  unfold loadInto
  cases hok : env.openOk k with
  | true =>
    simp only [hok, if_true]
    refine invI_of_set p i
      { pageNum := pNum, data := some (env.fileAt (pNum * PAGE_SIZE)),
        dirty := false, fixCounts := 1, strategyAttribute := some p.buffertimer }
      ?_ ?_ ?_ ?_ ?_ h
    · show ((p.frames.set i _).set i _) = _
      rw [set_set_same]
      rfl
    · show p.buffertimer ≤ p.buffertimer + 1
      omega
    · exact Or.inr ⟨hne, hfresh⟩
    · intro hc
      exact absurd hc hne
    · intro a ha
      simp only [Option.some.injEq] at ha
      show a ≤ p.buffertimer + 1
      omega
  | false =>
    simp only [hok, Bool.false_eq_true, if_false]
    refine invI_of_set p i _ rfl (le_refl _) ?_ ?_ ?_ h
    · refine Or.inl ?_
      by_cases hd : (fget p i).data = none <;> simp [hd]
    · intro hc
      have hpn : (fget p i).pageNum = NO_PAGE := by
        by_cases hd : (fget p i).data = none
        · simpa [hd] using hc
        · simpa [hd] using hc
      have hfx := h.2.1 i hi hpn
      by_cases hd : (fget p i).data = none <;> simp [hd, hfx]
    · intro a ha
      have hat : (fget p i).strategyAttribute = some a := by
        by_cases hd : (fget p i).data = none
        · simpa [hd] using ha
        · simpa [hd] using ha
      exact h.2.2 i hi a hat

lemma pinPage_invI (env : Env) (p : PoolI) (pNum : Int) (h : InvI p) :
    InvI (pinPage env p pNum).pool := by
  by_cases hneg : pNum < 0
  · simpa only [pinPage, hneg, if_true] using h
  · have hpos : 0 ≤ pNum := not_lt.mp hneg
    cases hres : scanIdx (fun f => f.pageNum == pNum) p.frames with
    | some i =>
      have hi : i < p.frames.length := scanIdx_some_lt hres
      have hpn : (fget p i).pageNum = pNum := by
        have := scanIdx_some_pred (d := emptyFrame) hres
        simpa [fget] using this
      have hnp : (fget p i).pageNum ≠ NO_PAGE := by
        rw [hpn]
        simp only [NO_PAGE]
        omega
      by_cases hs : p.strategy = RS_LRU ∨ p.strategy = RS_LRU_K
      · rw [show pinPage env p pNum =
          { rc := RC_OK,
            pool := { p with buffertimer := p.buffertimer + 1,
                             frames := p.frames.set i
                               { fget p i with
                                   strategyAttribute := some p.buffertimer,
                                   fixCounts := (fget p i).fixCounts + 1 } },
            page := some { fget p i with
                             strategyAttribute := some p.buffertimer,
                             fixCounts := (fget p i).fixCounts + 1 },
            trace := [] } by
          simp [pinPage, hneg, hres, hs, updateBfrAtrbt, fget]]
        refine invI_of_set p i _ rfl ?_ (Or.inl rfl) ?_ ?_ h
        · show p.buffertimer ≤ p.buffertimer + 1
          omega
        · intro hc
          exact absurd hc hnp
        · intro a ha
          simp only [Option.some.injEq] at ha
          show a ≤ p.buffertimer + 1
          omega
      · rw [show pinPage env p pNum =
          { rc := RC_OK,
            pool := { p with frames := p.frames.set i
                               { fget p i with
                                   fixCounts := (fget p i).fixCounts + 1 } },
            page := some { fget p i with fixCounts := (fget p i).fixCounts + 1 },
            trace := [] } by
          simp [pinPage, hneg, hres, hs, updateBfrAtrbt, fget]]
        refine invI_of_set p i _ rfl (le_refl _) (Or.inl rfl) ?_ ?_ h
        · intro hc
          exact absurd hc hnp
        · intro a ha
          exact h.2.2 i hi a ha
    | none =>
      have hfresh : ∀ j, j < p.frames.length → (fget p j).pageNum ≠ pNum := by
        intro j hj
        have := scanIdx_none_getD hres j hj
        simpa [fget] using this
      cases hempty : scanIdx (fun f => f.pageNum == NO_PAGE) p.frames with
      | some i =>
        rw [show pinPage env p pNum = loadInto env 0 p i pNum [] by
          simp [pinPage, hneg, hres, hempty]]
        exact loadInto_invI env 0 p i pNum [] (scanIdx_some_lt hempty) hpos hfresh h
      | none =>
        cases hvict : (strategyForFIFOandLRU p).1 with
        | none =>
          rw [show pinPage env p pNum =
              { rc := RC_NO_AVAILABLE_FRAME, pool := normalizeTimer p,
                page := none, trace := [] } by
            simp only [pinPage, if_neg hneg, hres, hempty]
            rw [hvict]
            rfl]
          exact normalizeTimer_invI p h
        | some i =>
          have hinorm : InvI (normalizeTimer p) := normalizeTimer_invI p h
          have hlen_norm : (normalizeTimer p).frames.length = p.frames.length := by
            by_cases hb : p.buffertimer > 32000 <;> simp [normalizeTimer, hb]
          have hi : i < p.frames.length := by
            rcases selectLoop_some_mem (enumFrom 0 p.frames) p.buffertimer none i hvict
              with ⟨f, hmem⟩ | hv
            · obtain ⟨t, ht, hj, _⟩ := enumFrom_mem p.frames 0 i f hmem
              omega
            · exact absurd hv (by simp)
          have hfresh_norm : ∀ j, j < (normalizeTimer p).frames.length →
              (fget (normalizeTimer p) j).pageNum ≠ pNum := by
            intro j hj
            rw [hlen_norm] at hj
            have hpj : (fget (normalizeTimer p) j).pageNum = (fget p j).pageNum := by
              by_cases hb : p.buffertimer > 32000
              · have hfr : (normalizeTimer p).frames = p.frames.map (fun f =>
                    match f.strategyAttribute with
                    | none => f
                    | some _ => { f with strategyAttribute := some 0 }) := by
                  simp [normalizeTimer, hb]
                show ((normalizeTimer p).frames.getD j emptyFrame).pageNum =
                  ((p.frames.getD j emptyFrame).pageNum)
                rw [hfr, getD_map_lt _ p.frames j emptyFrame emptyFrame hj]
                cases (p.frames.getD j emptyFrame).strategyAttribute <;> rfl
              · simp [normalizeTimer, hb]
            rw [hpj]
            exact hfresh j hj
          rw [show pinPage env p pNum =
              (if (fget (normalizeTimer p) i).dirty = true then
                (if (forcePage env 0 (normalizeTimer p)
                      (fget (normalizeTimer p) i).pageNum).rc = RC_OK then
                  loadInto env (forcePage env 0 (normalizeTimer p)
                      (fget (normalizeTimer p) i).pageNum).opens
                    (forcePage env 0 (normalizeTimer p)
                      (fget (normalizeTimer p) i).pageNum).pool i pNum
                    (forcePage env 0 (normalizeTimer p)
                      (fget (normalizeTimer p) i).pageNum).trace
                else
                  { rc := (forcePage env 0 (normalizeTimer p)
                      (fget (normalizeTimer p) i).pageNum).rc,
                    pool := (forcePage env 0 (normalizeTimer p)
                      (fget (normalizeTimer p) i).pageNum).pool,
                    page := none,
                    trace := (forcePage env 0 (normalizeTimer p)
                      (fget (normalizeTimer p) i).pageNum).trace })
              else loadInto env 0 (normalizeTimer p) i pNum []) by
            simp only [pinPage, if_neg hneg, hres, hempty]
            rw [hvict]
            rfl]
          by_cases hdirty : (fget (normalizeTimer p) i).dirty = true
          · simp only [hdirty, if_true]
            have hskel := forcePage_sameSkeleton env 0 (normalizeTimer p)
              (fget (normalizeTimer p) i).pageNum
            have hinv2 : InvI (forcePage env 0 (normalizeTimer p)
                (fget (normalizeTimer p) i).pageNum).pool :=
              invI_of_sameSkeleton hskel hinorm
            by_cases hrc : (forcePage env 0 (normalizeTimer p)
                (fget (normalizeTimer p) i).pageNum).rc = RC_OK
            · simp only [hrc, if_true]
              refine loadInto_invI env _ _ i pNum _ ?_ hpos ?_ hinv2
              · rw [hskel.1, hlen_norm]
                exact hi
              · intro j hj
                rw [hskel.1] at hj
                obtain ⟨hpj, _, _⟩ := hskel.2.2 j hj
                rw [hpj]
                exact hfresh_norm j hj
            · simp only [hrc, if_false]
              exact hinv2
          · simp only [hdirty, if_false]
            refine loadInto_invI env 0 (normalizeTimer p) i pNum [] ?_ hpos
              hfresh_norm hinorm
            rw [hlen_norm]
            exact hi

lemma exec_poolInv (env : Env) (op : Op) (pool : Pool) (h : PoolInv pool) :
    PoolInv (exec env op pool) := by
  cases op with
  | opInit n strat =>
    show PoolInv (initBufferPool env pool n strat).2
    unfold initBufferPool
    cases hok : env.openOk 0 with
    | true =>
      simp only [hok, if_true]
      exact initFresh_invI n strat
    | false =>
      simpa only [hok, Bool.false_eq_true, if_false] using h
  | opPin pNum =>
    cases pool with
    | none => trivial
    | some p => exact pinPage_invI env p pNum h
  | opUnpin pNum =>
    cases pool with
    | none => trivial
    | some p => exact unpinPage_invI p pNum h
  | opMarkDirty pNum =>
    cases pool with
    | none => trivial
    | some p => exact invI_of_sameSkeleton (markDirty_sameSkeleton p pNum) h
  | opFlushAll =>
    cases pool with
    | none => trivial
    | some p => exact invI_of_sameSkeleton (forceFlushPool_sameSkeleton env p) h
  | opForceFlushOne pNum =>
    cases pool with
    | none => trivial
    | some p => exact invI_of_sameSkeleton (forcePage_sameSkeleton env 0 p pNum) h
  | opShutdown =>
    cases pool with
    | none => trivial
    | some p =>
      show PoolInv (shutdownBufferPool env (some p)).2
      unfold shutdownBufferPool
      by_cases hpin : (p.frames.any (fun f => f.fixCounts != 0)) = true
      · simpa only [hpin, if_true] using h
      · simp only [hpin, Bool.false_eq_true, if_false]
        by_cases hrc : (forceFlushPool env p).rc = RC_OK
        · simp only [hrc, if_true]
          trivial
        · simp only [hrc, if_false]
          exact invI_of_sameSkeleton (forceFlushPool_sameSkeleton env p) h

lemma reachable_poolInv : ∀ {s : Pool}, Reachable s → PoolInv s := by
  intro s h
  induction h with
  | start => trivial
  | step env op hr ih => exact exec_poolInv env op _ ih

/-! Claim C2. -/

/-- C2: residency uniqueness. In every pool state reachable by any sequence
of initialize, pin, unpin, markDirty, flushAll, forceFlushOne and shutdown
operations, no two distinct frames hold the same non-sentinel page number:
if two frames agree on their page number, that number is the empty
sentinel NO_PAGE. -/
theorem c2_residency_uniqueness (p : PoolI) (h : Reachable (some p)) :
    ∀ i j, i < p.frames.length → j < p.frames.length → i ≠ j →
      (fget p i).pageNum = (fget p j).pageNum →
      (fget p i).pageNum = NO_PAGE := by
  have hinv : InvI p := reachable_poolInv h
  exact hinv.1

/-- C2 witness: the freshly initialized capacity-3 pool is reachable and its
first two (empty) frames agree on the sentinel page number. -/
theorem c2_witness : (fget fifo3 0).pageNum = NO_PAGE := by
  have hreach : Reachable (some fifo3) := by
    have h := Reachable.step envAllOk (Op.opInit 3 RS_FIFO) Reachable.start
    have he : exec envAllOk (Op.opInit 3 RS_FIFO) none = some fifo3 := by decide
    rwa [he] at h
  exact c2_residency_uniqueness fifo3 hreach 0 1 (by decide) (by decide)
    (by decide) (by decide)

/-! Claim C10. -/

/-- C10: clock dominance and selector totality. In every reachable
initialized pool, every present replacement attribute is at most the pool
clock; consequently the victim selector — whose running minimum starts at
the clock — returns a victim whenever at least one frame has pin count
zero. -/
theorem c10_clock_dominance (p : PoolI) (h : Reachable (some p)) :
    (∀ i, i < p.frames.length → ∀ a, (fget p i).strategyAttribute = some a →
      a ≤ p.buffertimer) ∧
    ((∃ i, i < p.frames.length ∧ (fget p i).fixCounts = 0) →
      (strategyForFIFOandLRU p).1 ≠ none) := by
  have hinv : InvI p := reachable_poolInv h
  refine ⟨hinv.2.2, ?_⟩
  rintro ⟨i, hi, hfx⟩
  show selectLoop (enumFrom 0 p.frames) p.buffertimer none ≠ none
  apply selectLoop_some_of_unpinned
  · rintro ⟨qi, qf⟩ hq a ha
    obtain ⟨t, ht, hj, hg⟩ := enumFrom_mem p.frames 0 qi qf hq
    rw [← hg] at ha
    exact hinv.2.2 t ht a ha
  · refine ⟨(i, fget p i), ?_, hfx⟩
    have h2 := enumFrom_mem_of_lt p.frames 0 i hi
    rw [Nat.zero_add] at h2
    exact h2

/-- C10 witness: a reachable fresh capacity-1 pool has an unpinned frame, so
the selector returns a victim. -/
theorem c10_witness : (strategyForFIFOandLRU c9Pool).1 ≠ none := by
  have hreach : Reachable (some c9Pool) := by
    have h := Reachable.step envAllOk (Op.opInit 1 RS_LRU) Reachable.start
    have he : exec envAllOk (Op.opInit 1 RS_LRU) none = some c9Pool := by decide
    rwa [he] at h
  exact (c10_clock_dominance c9Pool hreach).2 ⟨0, by decide, by decide⟩

/-! Claim C3. -/

lemma pin0_lruPool1 (n : Nat) :
    exec envAllOk (Op.opPin 0) (some (lruPool1 n)) = some (lruPool1 (n + 1)) := by
  simp only [exec, pinPage, lruPool1, scanIdx, fget, updateBfrAtrbt]
  norm_num

lemma reach_lruPool1 : ∀ n, Reachable (some (lruPool1 n)) := by
  intro n
  induction n with
  | zero =>
    have h0 := Reachable.step envAllOk (Op.opPin 0)
      (Reachable.step envAllOk (Op.opInit 1 RS_LRU) Reachable.start)
    have he : exec envAllOk (Op.opPin 0)
        (exec envAllOk (Op.opInit 1 RS_LRU) none) = some (lruPool1 0) := by decide
    rwa [he] at h0
  | succ n ih =>
    have h0 := Reachable.step envAllOk (Op.opPin 0) ih
    rwa [pin0_lruPool1 n] at h0

/-- C3 counterexample: a reachable capacity-1 pool (page 0 pinned 32001
times under LRU) has its clock at 32001; every frame is pinned and page 1 is
not resident, so pinning page 1 fails with RC_NO_AVAILABLE_FRAME — but the
failed call is not free of effect: the victim selector's normalization
resets the clock from 32001 to 0 (and the frame's attribute to 0), so the
pool state changes. -/
theorem c3_counterexample :
    Reachable (some (lruPool1 32000)) ∧
    (lruPool1 32000).frames.length = 1 ∧
    0 < (fget (lruPool1 32000) 0).fixCounts ∧
    (fget (lruPool1 32000) 0).pageNum ≠ 1 ∧
    (lruPool1 32000).buffertimer = 32001 ∧
    (pinPage envAllOk (lruPool1 32000) 1).rc = RC_NO_AVAILABLE_FRAME ∧
    (pinPage envAllOk (lruPool1 32000) 1).pool.buffertimer = 0 := by
  refine ⟨reach_lruPool1 32000, by decide, by decide, by decide, by decide,
    by decide, by decide⟩

/-- C3 amended: in a reachable pool in which every frame is pinned, pinning
a non-resident page fails with RC_NO_AVAILABLE_FRAME, no disk access
happens, no handle is returned, and the pool is left exactly as the victim
selector's normalization leaves it: unchanged whenever the clock is at most
32000, and with the clock and all present attributes reset to zero
otherwise. -/
theorem c3_amended (env : Env) (p : PoolI) (pNum : Int) (h : Reachable (some p))
    (hall : ∀ i, i < p.frames.length → 0 < (fget p i).fixCounts)
    (hnres : ∀ i, i < p.frames.length → (fget p i).pageNum ≠ pNum)
    (hpos : 0 ≤ pNum) :
    (pinPage env p pNum).rc = RC_NO_AVAILABLE_FRAME ∧
    (pinPage env p pNum).pool = normalizeTimer p ∧
    (pinPage env p pNum).page = none ∧
    (pinPage env p pNum).trace = [] ∧
    (p.buffertimer ≤ 32000 → (pinPage env p pNum).pool = p) := by
  have hinv : InvI p := reachable_poolInv h
  have hneg : ¬ pNum < 0 := not_lt.mpr hpos
  have hres : scanIdx (fun f => f.pageNum == pNum) p.frames = none := by
    rw [scanIdx_eq_none]
    intro f hf
    obtain ⟨i2, hi2, hg⟩ := (mem_iff_getD (d := emptyFrame)).mp hf
    rw [← hg]
    simpa [fget] using hnres i2 hi2
  have hempty : scanIdx (fun f => f.pageNum == NO_PAGE) p.frames = none := by
    rw [scanIdx_eq_none]
    intro f hf
    obtain ⟨i2, hi2, hg⟩ := (mem_iff_getD (d := emptyFrame)).mp hf
    rw [← hg]
    have hne0 : (fget p i2).pageNum ≠ NO_PAGE := by
      intro hc
      have hfx := hinv.2.1 i2 hi2 hc
      have := hall i2 hi2
      omega
    simpa [fget] using hne0
  have hsel : selectLoop (enumFrom 0 p.frames) p.buffertimer none = none := by
    apply selectLoop_all_pinned
    rintro ⟨qi, qf⟩ hq
    obtain ⟨t, ht, hj, hg⟩ := enumFrom_mem p.frames 0 qi qf hq
    rw [← hg]
    have := hall t ht
    simp only [fget] at this ⊢
    omega
  have hvict : (strategyForFIFOandLRU p).1 = none := hsel
  have hpin : pinPage env p pNum =
      { rc := RC_NO_AVAILABLE_FRAME, pool := normalizeTimer p, page := none,
        trace := [] } := by
    simp only [pinPage, if_neg hneg, hres, hempty]
    rw [hvict]
    rfl
  rw [hpin]
  refine ⟨rfl, rfl, rfl, rfl, ?_⟩
  intro hb
  show normalizeTimer p = p
  have hnb : ¬ p.buffertimer > 32000 := by omega
  simp [normalizeTimer, hnb]

/-- C3 witness: the amended behaviour at a reachable concrete pool whose
only frame is pinned, with the clock within bounds so the state is exactly
unchanged. -/
theorem c3_witness :
    (pinPage envAllOk (lruPool1 0) 1).rc = RC_NO_AVAILABLE_FRAME ∧
    (pinPage envAllOk (lruPool1 0) 1).pool = lruPool1 0 := by
  have hmain := c3_amended envAllOk (lruPool1 0) 1 (reach_lruPool1 0)
    (by
      intro i hi
      have h1 : (lruPool1 0).frames.length = 1 := by decide
      rw [h1] at hi
      have h0 : i = 0 := by omega
      subst h0
      decide)
    (by
      intro i hi
      have h1 : (lruPool1 0).frames.length = 1 := by decide
      rw [h1] at hi
      have h0 : i = 0 := by omega
      subst h0
      decide)
    (by decide)
  exact ⟨hmain.1, hmain.2.2.2.2 (by decide)⟩

/-! Claim C6: the forceFlushPool loop. -/

lemma scanIdx_pageNum_set (l : List BM_PageHandle) (i : Nat) (f' : BM_PageHandle)
    (hpn : f'.pageNum = (l.getD i emptyFrame).pageNum) (x : Int) :
    scanIdx (fun f => f.pageNum == x) (l.set i f') =
      scanIdx (fun f => f.pageNum == x) l := by
  induction l generalizing i with
  | nil => rfl
  | cons y ys ih =>
    cases i with
    | zero =>
      show scanIdx _ (f' :: ys) = scanIdx _ (y :: ys)
      simp only [scanIdx]
      simp only [show f'.pageNum = y.pageNum from hpn]
    | succ i =>
      show scanIdx _ (y :: ys.set i f') = scanIdx _ (y :: ys)
      simp only [scanIdx]
      rw [ih i hpn]

/-- The pool one successful flush of frame i produces. -/
def flushedAt (p : PoolI) (i : Nat) : PoolI :=
  { p with frames := p.frames.set i (clearDirty (fget p i)),
           numberWriteIo := p.numberWriteIo + 1 }

lemma flushLoop_cons_step (env : Env) (i : Nat) (rest : List Nat) (k : Nat)
    (p : PoolI) (acc : List IoEv)
    (hi : i < p.frames.length)
    (hc : ((fget p i).dirty && (fget p i).fixCounts == 0) = true)
    (hmatch : scanIdx (fun f => f.pageNum == (fget p i).pageNum) p.frames = some i)
    (hok : env.openOk k = true) :
    flushLoop env (i :: rest) k p acc =
      flushLoop env rest (k + 1) (flushedAt p i) (acc ++ [flushEvent p i]) := by
  have hforce : forcePage env k p (fget p i).pageNum =
      { rc := RC_OK, pool := flushedAt p i, opens := k + 1,
        trace := [flushEvent p i] } := by
    simp [forcePage, hmatch, hok, flushedAt, flushEvent, clearDirty]
  have hf2 : fget (flushedAt p i) i = clearDirty (fget p i) :=
    fget_frames_set_self p i _ rfl hi
  show (if ((fget p i).dirty && (fget p i).fixCounts == 0) = true then _ else _) = _
  rw [if_pos hc, hforce]
  simp only [hf2]
  have hframes : (flushedAt p i).frames.set i
      { clearDirty (fget p i) with dirty := false } =
      p.frames.set i (clearDirty (fget p i)) := by
    show (p.frames.set i _).set i _ = _
    rw [set_set_same]
    rfl
  simp only [flushedAt] at hframes ⊢
  rw [hframes]
  simp

lemma flushLoop_cons_skip (env : Env) (i : Nat) (rest : List Nat) (k : Nat)
    (p : PoolI) (acc : List IoEv)
    (hc : ((fget p i).dirty && (fget p i).fixCounts == 0) = false) :
    flushLoop env (i :: rest) k p acc = flushLoop env rest k p acc := by
  show (if ((fget p i).dirty && (fget p i).fixCounts == 0) = true then _ else _) = _
  rw [if_neg (by rw [hc]; simp)]

lemma flushLoop_cons_fail (env : Env) (i : Nat) (rest : List Nat) (k : Nat)
    (p : PoolI) (acc : List IoEv)
    (hc : ((fget p i).dirty && (fget p i).fixCounts == 0) = true)
    (hmatch : scanIdx (fun f => f.pageNum == (fget p i).pageNum) p.frames = some i)
    (hok : env.openOk k = false) :
    flushLoop env (i :: rest) k p acc =
      { rc := RC_FILE_NOT_FOUND, pool := p, opens := k + 1, trace := acc } := by
  have hforce : forcePage env k p (fget p i).pageNum =
      { rc := RC_FILE_NOT_FOUND, pool := p, opens := k + 1, trace := [] } := by
    simp [forcePage, hmatch, hok]
  show (if ((fget p i).dirty && (fget p i).fixCounts == 0) = true then _ else _) = _
  rw [if_pos hc, hforce]
  simp

/-- How flushing frame i changes the view of every frame and the rest of the
loop hypotheses. -/
lemma flushedAt_facts (p : PoolI) (i : Nat) (hi : i < p.frames.length) :
    (flushedAt p i).frames.length = p.frames.length ∧
    fget (flushedAt p i) i = clearDirty (fget p i) ∧
    (∀ j, j ≠ i → fget (flushedAt p i) j = fget p j) ∧
    (flushedAt p i).numberWriteIo = p.numberWriteIo + 1 ∧
    (flushedAt p i).numberReadIo = p.numberReadIo ∧
    (flushedAt p i).buffertimer = p.buffertimer ∧
    (flushedAt p i).strategy = p.strategy := by
  refine ⟨by simp [flushedAt], fget_frames_set_self p i _ rfl hi, ?_, rfl, rfl, rfl, rfl⟩
  intro j hj
  exact fget_frames_set_ne p i j ⟨_, rfl⟩ (fun hc => hj hc.symm)

lemma list_map_congr {α β : Type} : ∀ (l : List α) (f g : α → β),
    (∀ a ∈ l, f a = g a) → l.map f = l.map g := by
  intro l
  induction l with
  | nil => intro f g _; rfl
  | cons x xs ih =>
    intro f g h
    simp only [List.map_cons]
    rw [h x (List.mem_cons_self _ _), ih f g (fun a ha => h a (List.mem_cons_of_mem _ ha))]

lemma flushLoop_ok (env : Env) : ∀ (idxs : List Nat) (p : PoolI) (k : Nat)
    (acc : List IoEv),
    (∀ i ∈ idxs, i < p.frames.length) →
    idxs.Nodup →
    (∀ i ∈ idxs, ((fget p i).dirty && (fget p i).fixCounts == 0) = true →
      scanIdx (fun f => f.pageNum == (fget p i).pageNum) p.frames = some i) →
    (∀ n, n < (idxs.filter
        (fun i => (fget p i).dirty && (fget p i).fixCounts == 0)).length →
      env.openOk (k + n) = true) →
    (flushLoop env idxs k p acc).rc = RC_OK ∧
    (flushLoop env idxs k p acc).trace = acc ++
      (idxs.filter (fun i => (fget p i).dirty && (fget p i).fixCounts == 0)).map
        (flushEvent p) ∧
    (flushLoop env idxs k p acc).pool.numberWriteIo = p.numberWriteIo +
      (idxs.filter (fun i => (fget p i).dirty && (fget p i).fixCounts == 0)).length ∧
    (flushLoop env idxs k p acc).pool.numberReadIo = p.numberReadIo ∧
    (flushLoop env idxs k p acc).pool.buffertimer = p.buffertimer ∧
    (flushLoop env idxs k p acc).pool.strategy = p.strategy ∧
    (flushLoop env idxs k p acc).pool.frames.length = p.frames.length ∧
    (∀ j, j < p.frames.length →
      fget (flushLoop env idxs k p acc).pool j =
        if j ∈ idxs.filter (fun i => (fget p i).dirty && (fget p i).fixCounts == 0)
        then clearDirty (fget p j) else fget p j) := by
  intro idxs
  induction idxs with
  | nil =>
    intro p k acc _ _ _ _
    refine ⟨rfl, by simp [flushLoop], by simp [flushLoop], rfl, rfl, rfl, rfl, ?_⟩
    intro j hj
    simp [flushLoop]
  | cons i rest ih =>
    intro p k acc hb hnd hfirst hok
    have hi : i < p.frames.length := hb i (List.mem_cons_self _ _)
    have hnd2 : i ∉ rest ∧ rest.Nodup := by
      simpa [List.nodup_cons] using hnd
    cases hc : ((fget p i).dirty && (fget p i).fixCounts == 0) with
    | false =>
      have hfilcons : (i :: rest).filter
          (fun i2 => (fget p i2).dirty && (fget p i2).fixCounts == 0) =
          rest.filter (fun i2 => (fget p i2).dirty && (fget p i2).fixCounts == 0) := by
        simp [List.filter_cons, hc]
      rw [flushLoop_cons_skip env i rest k p acc hc]
      obtain ⟨ih1, ih2, ih3, ih4, ih5, ih6, ih7, ih8⟩ := ih p k acc
        (fun i2 h2 => hb i2 (List.mem_cons_of_mem _ h2)) hnd2.2
        (fun i2 h2 hcc => hfirst i2 (List.mem_cons_of_mem _ h2) hcc)
        (fun n hn => hok n (by rw [hfilcons]; exact hn))
      refine ⟨ih1, by rw [ih2, hfilcons], by rw [ih3, hfilcons], ih4, ih5, ih6, ih7, ?_⟩
      intro j hj
      rw [ih8 j hj, hfilcons]
    | true =>
      have hfilcons : (i :: rest).filter
          (fun i2 => (fget p i2).dirty && (fget p i2).fixCounts == 0) =
          i :: rest.filter (fun i2 => (fget p i2).dirty && (fget p i2).fixCounts == 0) := by
        simp [List.filter_cons, hc]
      have hok0 : env.openOk k = true := by
        have h0 : 0 < ((i :: rest).filter
            (fun i2 => (fget p i2).dirty && (fget p i2).fixCounts == 0)).length := by
          rw [hfilcons]
          simp
        simpa using hok 0 h0
      rw [flushLoop_cons_step env i rest k p acc hi hc
        (hfirst i (List.mem_cons_self _ _) hc) hok0]
      obtain ⟨hlen2, hfi2, hfj2, hw2, hr2, ht2, hs2⟩ := flushedAt_facts p i hi
      have hfget_rest : ∀ i2 ∈ rest, fget (flushedAt p i) i2 = fget p i2 := by
        intro i2 h2
        exact hfj2 i2 (fun hcc => hnd2.1 (hcc ▸ h2))
      have hfilter_eq : rest.filter
          (fun i2 => (fget (flushedAt p i) i2).dirty &&
            (fget (flushedAt p i) i2).fixCounts == 0) =
          rest.filter (fun i2 => (fget p i2).dirty && (fget p i2).fixCounts == 0) := by
        apply List.filter_congr
        intro i2 h2
        rw [hfget_rest i2 h2]
      have hfirst2 : ∀ i2 ∈ rest,
          ((fget (flushedAt p i) i2).dirty &&
            (fget (flushedAt p i) i2).fixCounts == 0) = true →
          scanIdx (fun f => f.pageNum == (fget (flushedAt p i) i2).pageNum)
            (flushedAt p i).frames = some i2 := by
        intro i2 h2 hc2
        rw [hfget_rest i2 h2] at hc2 ⊢
        have hscan := hfirst i2 (List.mem_cons_of_mem _ h2) hc2
        show scanIdx _ (p.frames.set i (clearDirty (fget p i))) = some i2
        rw [scanIdx_pageNum_set p.frames i (clearDirty (fget p i)) rfl]
        exact hscan
      have hok2 : ∀ n, n < (rest.filter
          (fun i2 => (fget (flushedAt p i) i2).dirty &&
            (fget (flushedAt p i) i2).fixCounts == 0)).length →
          env.openOk (k + 1 + n) = true := by
        intro n hn
        rw [hfilter_eq] at hn
        have h1 : n + 1 < ((i :: rest).filter
            (fun i2 => (fget p i2).dirty && (fget p i2).fixCounts == 0)).length := by
          rw [hfilcons]
          simp only [List.length_cons]
          omega
        have h2 := hok (n + 1) h1
        rw [show k + (n + 1) = k + 1 + n by omega] at h2
        exact h2
      obtain ⟨ih1, ih2, ih3, ih4, ih5, ih6, ih7, ih8⟩ :=
        ih (flushedAt p i) (k + 1) (acc ++ [flushEvent p i])
          (fun i2 h2 => by rw [hlen2]; exact hb i2 (List.mem_cons_of_mem _ h2))
          hnd2.2 hfirst2 hok2
      have hmap2 : (rest.filter
          (fun i2 => (fget p i2).dirty && (fget p i2).fixCounts == 0)).map
            (flushEvent (flushedAt p i)) =
          (rest.filter
            (fun i2 => (fget p i2).dirty && (fget p i2).fixCounts == 0)).map
            (flushEvent p) := by
        apply list_map_congr
        intro a ha
        have haR : a ∈ rest := (List.mem_filter.mp ha).1
        show IoEv.writeAt ((fget (flushedAt p i) a).pageNum * PAGE_SIZE)
            ((fget (flushedAt p i) a).data) = _
        rw [hfget_rest a haR]
        rfl
      refine ⟨ih1, ?_, ?_, ?_, ?_, ?_, ?_, ?_⟩
      · rw [ih2, hfilter_eq, hmap2, hfilcons]
        simp
      · rw [ih3, hfilter_eq, hw2, hfilcons]
        simp only [List.length_cons]
        omega
      · rw [ih4, hr2]
      · rw [ih5, ht2]
      · rw [ih6, hs2]
      · rw [ih7, hlen2]
      · intro j hj
        rw [ih8 j (by rw [hlen2]; exact hj), hfilter_eq, hfilcons]
        by_cases hjr : j ∈ rest.filter
            (fun i2 => (fget p i2).dirty && (fget p i2).fixCounts == 0)
        · rw [if_pos hjr, if_pos (List.mem_cons_of_mem _ hjr)]
          have hjrest : j ∈ rest := (List.mem_filter.mp hjr).1
          rw [hfget_rest j hjrest]
        · rw [if_neg hjr]
          by_cases hji : j = i
          · subst hji
            rw [if_pos (List.mem_cons_self _ _), hfi2]
          · rw [if_neg (by
              intro hmem
              rcases List.mem_cons.mp hmem with hcc | hcc
              · exact hji hcc
              · exact hjr hcc)]
            exact hfj2 j hji

lemma flushLoop_fail (env : Env) : ∀ (idxs : List Nat) (p : PoolI) (k : Nat)
    (acc : List IoEv) (kf : Nat),
    (∀ i ∈ idxs, i < p.frames.length) →
    idxs.Nodup →
    (∀ i ∈ idxs, ((fget p i).dirty && (fget p i).fixCounts == 0) = true →
      scanIdx (fun f => f.pageNum == (fget p i).pageNum) p.frames = some i) →
    kf < (idxs.filter
      (fun i => (fget p i).dirty && (fget p i).fixCounts == 0)).length →
    (∀ n, n < kf → env.openOk (k + n) = true) →
    env.openOk (k + kf) = false →
    (flushLoop env idxs k p acc).rc = RC_FILE_NOT_FOUND ∧
    (flushLoop env idxs k p acc).trace = acc ++
      ((idxs.filter (fun i => (fget p i).dirty && (fget p i).fixCounts == 0)).take
        kf).map (flushEvent p) ∧
    (flushLoop env idxs k p acc).pool.numberWriteIo = p.numberWriteIo + kf ∧
    (flushLoop env idxs k p acc).pool.numberReadIo = p.numberReadIo ∧
    (flushLoop env idxs k p acc).pool.buffertimer = p.buffertimer ∧
    (flushLoop env idxs k p acc).pool.strategy = p.strategy ∧
    (flushLoop env idxs k p acc).pool.frames.length = p.frames.length ∧
    (∀ j, j < p.frames.length →
      fget (flushLoop env idxs k p acc).pool j =
        if j ∈ (idxs.filter
            (fun i => (fget p i).dirty && (fget p i).fixCounts == 0)).take kf
        then clearDirty (fget p j) else fget p j) := by
  intro idxs
  induction idxs with
  | nil =>
    intro p k acc kf _ _ _ hkf _ _
    simp at hkf
  | cons i rest ih =>
    intro p k acc kf hb hnd hfirst hkf hbefore hfail
    have hi : i < p.frames.length := hb i (List.mem_cons_self _ _)
    have hnd2 : i ∉ rest ∧ rest.Nodup := by
      simpa [List.nodup_cons] using hnd
    cases hc : ((fget p i).dirty && (fget p i).fixCounts == 0) with
    | false =>
      have hfilcons : (i :: rest).filter
          (fun i2 => (fget p i2).dirty && (fget p i2).fixCounts == 0) =
          rest.filter (fun i2 => (fget p i2).dirty && (fget p i2).fixCounts == 0) := by
        simp [List.filter_cons, hc]
      rw [flushLoop_cons_skip env i rest k p acc hc]
      obtain ⟨ih1, ih2, ih3, ih4, ih5, ih6, ih7, ih8⟩ := ih p k acc kf
        (fun i2 h2 => hb i2 (List.mem_cons_of_mem _ h2)) hnd2.2
        (fun i2 h2 hcc => hfirst i2 (List.mem_cons_of_mem _ h2) hcc)
        (by rw [hfilcons] at hkf; exact hkf) hbefore hfail
      refine ⟨ih1, by rw [ih2, hfilcons], ih3, ih4, ih5, ih6, ih7, ?_⟩
      intro j hj
      rw [ih8 j hj, hfilcons]
    | true =>
      have hfilcons : (i :: rest).filter
          (fun i2 => (fget p i2).dirty && (fget p i2).fixCounts == 0) =
          i :: rest.filter (fun i2 => (fget p i2).dirty && (fget p i2).fixCounts == 0) := by
        simp [List.filter_cons, hc]
      cases kf with
      | zero =>
        have hok : env.openOk k = false := by simpa using hfail
        rw [flushLoop_cons_fail env i rest k p acc hc
          (hfirst i (List.mem_cons_self _ _) hc) hok]
        refine ⟨rfl, by simp, by simp, rfl, rfl, rfl, rfl, ?_⟩
        intro j hj
        simp
      | succ n =>
        have hok0 : env.openOk k = true := by
          simpa using hbefore 0 (Nat.succ_pos n)
        rw [flushLoop_cons_step env i rest k p acc hi hc
          (hfirst i (List.mem_cons_self _ _) hc) hok0]
        obtain ⟨hlen2, hfi2, hfj2, hw2, hr2, ht2, hs2⟩ := flushedAt_facts p i hi
        have hfget_rest : ∀ i2 ∈ rest, fget (flushedAt p i) i2 = fget p i2 := by
          intro i2 h2
          exact hfj2 i2 (fun hcc => hnd2.1 (hcc ▸ h2))
        have hfilter_eq : rest.filter
            (fun i2 => (fget (flushedAt p i) i2).dirty &&
              (fget (flushedAt p i) i2).fixCounts == 0) =
            rest.filter (fun i2 => (fget p i2).dirty && (fget p i2).fixCounts == 0) := by
          apply List.filter_congr
          intro i2 h2
          rw [hfget_rest i2 h2]
        have hfirst2 : ∀ i2 ∈ rest,
            ((fget (flushedAt p i) i2).dirty &&
              (fget (flushedAt p i) i2).fixCounts == 0) = true →
            scanIdx (fun f => f.pageNum == (fget (flushedAt p i) i2).pageNum)
              (flushedAt p i).frames = some i2 := by
          intro i2 h2 hc2
          rw [hfget_rest i2 h2] at hc2 ⊢
          have hscan := hfirst i2 (List.mem_cons_of_mem _ h2) hc2
          show scanIdx _ (p.frames.set i (clearDirty (fget p i))) = some i2
          rw [scanIdx_pageNum_set p.frames i (clearDirty (fget p i)) rfl]
          exact hscan
        have hkf2 : n < (rest.filter
            (fun i2 => (fget (flushedAt p i) i2).dirty &&
              (fget (flushedAt p i) i2).fixCounts == 0)).length := by
          rw [hfilter_eq]
          rw [hfilcons] at hkf
          simp only [List.length_cons] at hkf
          omega
        have hbefore2 : ∀ m, m < n → env.openOk (k + 1 + m) = true := by
          intro m hm
          have h2 := hbefore (m + 1) (by omega)
          rw [show k + (m + 1) = k + 1 + m by omega] at h2
          exact h2
        have hfail2 : env.openOk (k + 1 + n) = false := by
          rw [show k + 1 + n = k + (n + 1) by omega]
          exact hfail
        obtain ⟨ih1, ih2, ih3, ih4, ih5, ih6, ih7, ih8⟩ :=
          ih (flushedAt p i) (k + 1) (acc ++ [flushEvent p i]) n
            (fun i2 h2 => by rw [hlen2]; exact hb i2 (List.mem_cons_of_mem _ h2))
            hnd2.2 hfirst2 hkf2 hbefore2 hfail2
        have htake : ((i :: rest).filter
            (fun i2 => (fget p i2).dirty && (fget p i2).fixCounts == 0)).take (n + 1) =
            i :: (rest.filter
              (fun i2 => (fget p i2).dirty && (fget p i2).fixCounts == 0)).take n := by
          rw [hfilcons]
          rfl
        have hmap2 : ((rest.filter
            (fun i2 => (fget p i2).dirty && (fget p i2).fixCounts == 0)).take n).map
              (flushEvent (flushedAt p i)) =
            ((rest.filter
              (fun i2 => (fget p i2).dirty && (fget p i2).fixCounts == 0)).take n).map
              (flushEvent p) := by
          apply list_map_congr
          intro a ha
          have haR : a ∈ rest :=
            (List.mem_filter.mp (List.take_subset _ _ ha)).1
          show IoEv.writeAt ((fget (flushedAt p i) a).pageNum * PAGE_SIZE)
              ((fget (flushedAt p i) a).data) = _
          rw [hfget_rest a haR]
          rfl
        refine ⟨ih1, ?_, ?_, ?_, ?_, ?_, ?_, ?_⟩
        · rw [ih2, hfilter_eq, hmap2, htake]
          simp
        · rw [ih3, hw2]
          omega
        · rw [ih4, hr2]
        · rw [ih5, ht2]
        · rw [ih6, hs2]
        · rw [ih7, hlen2]
        · intro j hj
          rw [ih8 j (by rw [hlen2]; exact hj), hfilter_eq, htake]
          by_cases hjr : j ∈ (rest.filter
              (fun i2 => (fget p i2).dirty && (fget p i2).fixCounts == 0)).take n
          · rw [if_pos hjr, if_pos (List.mem_cons_of_mem _ hjr)]
            have hjrest : j ∈ rest :=
              (List.mem_filter.mp (List.take_subset _ _ hjr)).1
            rw [hfget_rest j hjrest]
          · rw [if_neg hjr]
            by_cases hji : j = i
            · subst hji
              rw [if_pos (List.mem_cons_self _ _), hfi2]
            · rw [if_neg (by
                intro hmem
                rcases List.mem_cons.mp hmem with hcc | hcc
                · exact hji hcc
                · exact hjr hcc)]
              exact hfj2 j hji

/-- C6: forceFlushPool writes back exactly the dirty, unpinned frames, in
frame-index order, each as one write of the frame's content at byte offset
pageNumber * PAGE_SIZE, incrementing the write counter once and clearing the
dirty flag per flushed frame; pinned frames are skipped even if dirty, and no
other frame or counter changes. If the kf-th write's fopen fails, the
remaining flushes are abandoned, RC_FILE_NOT_FOUND is surfaced, and exactly
the frames already flushed (the first kf targets) are clean, with exactly
their writes in the trace. The hypothesis says each flush target is the
first frame holding its page number, which holds in every reachable pool
by residency uniqueness. -/
theorem c6_flushAll (env : Env) (p : PoolI)
    (hfirst : ∀ i, i < p.frames.length → (fget p i).dirty = true →
      (fget p i).fixCounts = 0 →
      scanIdx (fun f => f.pageNum == (fget p i).pageNum) p.frames = some i) :
    ((∀ n, n < (flushTargets p).length → env.openOk n = true) →
      (forceFlushPool env p).rc = RC_OK ∧
      (forceFlushPool env p).trace = (flushTargets p).map (flushEvent p) ∧
      (forceFlushPool env p).pool.numberWriteIo =
        p.numberWriteIo + (flushTargets p).length ∧
      (forceFlushPool env p).pool.numberReadIo = p.numberReadIo ∧
      (forceFlushPool env p).pool.buffertimer = p.buffertimer ∧
      (forceFlushPool env p).pool.frames.length = p.frames.length ∧
      (∀ j, j < p.frames.length →
        fget (forceFlushPool env p).pool j =
          if j ∈ flushTargets p then clearDirty (fget p j) else fget p j)) ∧
    (∀ kf, kf < (flushTargets p).length → (∀ n, n < kf → env.openOk n = true) →
      env.openOk kf = false →
      (forceFlushPool env p).rc = RC_FILE_NOT_FOUND ∧
      (forceFlushPool env p).trace = ((flushTargets p).take kf).map (flushEvent p) ∧
      (forceFlushPool env p).pool.numberWriteIo = p.numberWriteIo + kf ∧
      (∀ j, j < p.frames.length →
        fget (forceFlushPool env p).pool j =
          if j ∈ (flushTargets p).take kf then clearDirty (fget p j)
          else fget p j)) := by
  have hb : ∀ i ∈ List.range p.frames.length, i < p.frames.length :=
    fun i h => List.mem_range.mp h
  have hnd : (List.range p.frames.length).Nodup := List.nodup_range p.frames.length
  have hfirst2 : ∀ i ∈ List.range p.frames.length,
      ((fget p i).dirty && (fget p i).fixCounts == 0) = true →
      scanIdx (fun f => f.pageNum == (fget p i).pageNum) p.frames = some i := by
    intro i hmem hcc
    have hi := List.mem_range.mp hmem
    obtain ⟨hd, hf⟩ : (fget p i).dirty = true ∧ ((fget p i).fixCounts == 0) = true := by
      simpa using hcc
    exact hfirst i hi hd (by simpa using hf)
  refine ⟨?_, ?_⟩
  · intro hoks
    obtain ⟨h1, h2, h3, h4, h5, _, h7, h8⟩ :=
      flushLoop_ok env (List.range p.frames.length) p 0 [] hb hnd hfirst2
        (fun n hn => by rw [Nat.zero_add]; exact hoks n hn)
    exact ⟨h1, by simpa using h2, h3, h4, h5, h7, h8⟩
  · intro kf hkf hbef hfail
    obtain ⟨h1, h2, h3, _, _, _, _, h8⟩ :=
      flushLoop_fail env (List.range p.frames.length) p 0 [] kf hb hnd hfirst2 hkf
        (fun n hn => by rw [Nat.zero_add]; exact hbef n hn)
        (by rw [Nat.zero_add]; exact hfail)
    exact ⟨h1, by simpa using h2, h3, h8⟩

/-- C6 witness: flushing c6Pool (frames 0 and 2 dirty and unpinned, frame 1
dirty but pinned) writes exactly pages 0 and 2, in order, at their byte
offsets, and increments the write counter by two. -/
theorem c6_witness :
    (forceFlushPool envAllOk c6Pool).rc = RC_OK ∧
    (forceFlushPool envAllOk c6Pool).trace =
      [IoEv.writeAt (0 * PAGE_SIZE) (some 1), IoEv.writeAt (2 * PAGE_SIZE) (some 3)] ∧
    (forceFlushPool envAllOk c6Pool).pool.numberWriteIo = 2 := by
  have hf : ∀ i, i < c6Pool.frames.length → (fget c6Pool i).dirty = true →
      (fget c6Pool i).fixCounts = 0 →
      scanIdx (fun f => f.pageNum == (fget c6Pool i).pageNum) c6Pool.frames = some i := by
    intro i hi hd hfx
    have h3 : c6Pool.frames.length = 3 := by decide
    rw [h3] at hi
    interval_cases i
    · decide
    · exact absurd hfx (by decide)
    · decide
  have happ := (c6_flushAll envAllOk c6Pool hf).1 (fun n _ => rfl)
  refine ⟨happ.1, ?_, ?_⟩
  · rw [happ.2.1]
    decide
  · rw [happ.2.2.1]
    decide

end BufferMgr